import Mathlib

/-!
# FogLAMP "rate" filter: a shallow embedding of `rate_filter.cpp`

The development follows `src/rate_filter.cpp` and `src/include/rate_filter.h`.

Modelling conventions
* A finite `double` is the rational it denotes (`Rat`); a NaN result of the
  expression library, which compares unequal to `0.0`, is any non-zero value.
  The arithmetic of the program on doubles (`+=`, `/`, the conversion of a
  `long`) rounds to the nearest binary64 value, ties to even (`Double.nearest`);
  where the code would hold an infinity or a NaN after such an operation the
  embedding stops with `Fault.notFinite`.
* `struct timeval` is a pair of integers; `timeradd`, `timersub` and `timercmp`
  are the macros of `<sys/time.h>`.
* `Reading *` is the reading itself: a forwarded pointer and a copy made with
  `new Reading(*reading)` are the same value; `delete` has no counterpart.
* Member functions take the filter as an explicit argument and return the new
  filter; `out` is threaded through in the same way.
* The mutual recursion of `triggeredIngest` and `untriggeredIngest` carries a
  fuel argument that counts handler invocations, the `for` loops are
  structural recursions over the batch.
* Undefined behaviour of the C++ (front of an empty container, a null
  evaluator pointer) is the result `Fault.undefinedBehaviour`.
* The C `int` members `m_pretrigger` and `m_averageCount` are integers without
  bound: the count would need 2^31 folds without an emission to overflow.
-/

namespace FogLamp

/-! ## Collaborator types: timestamps, data-points, readings -/

/-- The C `struct timeval`. -/
structure Timeval where
  tv_sec : Int
  tv_usec : Int
deriving DecidableEq, Repr

/-- The macro `timeradd(a, b, result)` of `<sys/time.h>`. -/
def timeradd (a b : Timeval) : Timeval :=
  if a.tv_usec + b.tv_usec ≥ 1000000 then
    ⟨a.tv_sec + b.tv_sec + 1, a.tv_usec + b.tv_usec - 1000000⟩
  else
    ⟨a.tv_sec + b.tv_sec, a.tv_usec + b.tv_usec⟩

/-- The macro `timersub(a, b, result)` of `<sys/time.h>`. -/
def timersub (a b : Timeval) : Timeval :=
  if a.tv_usec - b.tv_usec < 0 then
    ⟨a.tv_sec - b.tv_sec - 1, a.tv_usec - b.tv_usec + 1000000⟩
  else
    ⟨a.tv_sec - b.tv_sec, a.tv_usec - b.tv_usec⟩

/-- The macro `timercmp(a, b, >)` of `<sys/time.h>`. -/
def timercmpGt (a b : Timeval) : Bool :=
  if a.tv_sec = b.tv_sec then decide (a.tv_usec > b.tv_usec)
  else decide (a.tv_sec > b.tv_sec)

/-- The tagged value of a data-point (`DatapointValue`): the filter only ever
asks whether the tag is `T_INTEGER` or `T_FLOAT`; `T_STRING` stands for every
other kind. -/
inductive DatapointValue where
  | T_STRING (s : String)
  | T_INTEGER (i : Int)
  | T_FLOAT (d : Rat)
deriving DecidableEq, Repr

/-- A named data-point (`Datapoint`): `getName()` and `getData()`. -/
structure Datapoint where
  name : String
  data : DatapointValue
deriving DecidableEq, Repr

/-- A reading (`Reading`): `getAssetName()`, `getReadingData()`,
`getUserTimestamp()` and `getTimestamp()`. -/
structure Reading where
  assetName : String
  readingData : List Datapoint
  userTimestamp : Timeval
  timestamp : Timeval
deriving DecidableEq, Repr

/-- What lies outside the repository and the program cannot fix: the value
that the exprtk library gives to an expression, and the indeterminate contents
of the `m_variables` array of a freshly allocated evaluator. -/
structure World where
  /-- The result of `m_expression.value()` for the expression compiled from the
  given text against a symbol table binding the given names to the given
  slots. -/
  exprValue : List String → String → List Rat → Rat
  /-- The result of `m_parser.compile` for the given text against a symbol table
  binding the given names; the constructor of the evaluator does not look at
  it. -/
  compiles : List String → String → Bool
  /-- The contents of `m_variables` when the trigger evaluator is allocated. -/
  uninitTrigger : List Rat
  /-- The contents of `m_variables` when the untrigger evaluator is allocated. -/
  uninitUntrigger : List Rat

/-! ## Arithmetic on doubles -/

namespace Double

/-- The number of halvings that bring `n` below 2, at most `fuel` of them. -/
def halvings : Nat → Nat → Nat
  | 0, _ => 0
  | fuel + 1, n => if 2 ≤ n then halvings fuel (n / 2) + 1 else 0

/-- The position of the leading bit of `n`. -/
def log2 (n : Nat) : Nat := halvings n n

/-- The quotient `(n / d) / 2 ^ p` as a numerator and a denominator. -/
def scaled (n d : Nat) (p : Int) : Nat × Nat :=
  if 0 ≤ p then (n, d * 2 ^ p.toNat) else (n * 2 ^ (-p).toNat, d)

/-- The integer nearest to `n / d`, the even one when two are equally near. -/
def roundHalfEven (n d : Nat) : Nat :=
  if 2 * (n % d) < d then n / d
  else if d < 2 * (n % d) then n / d + 1
  else if n / d % 2 = 0 then n / d
  else n / d + 1

/-- The exponent `e` with `2 ^ e ≤ n / d < 2 ^ (e + 1)`, for `n` and `d` above 0. -/
def exponent (n d : Nat) : Int :=
  if (scaled n d ((log2 n : Int) - (log2 d : Int))).1
      < (scaled n d ((log2 n : Int) - (log2 d : Int))).2 then
    (log2 n : Int) - (log2 d : Int) - 1
  else (log2 n : Int) - (log2 d : Int)

/-- The product `m * 2 ^ p`. -/
def scale (m : Nat) (p : Int) : Rat :=
  if 0 ≤ p then ((m * 2 ^ p.toNat : Nat) : Rat) else (m : Rat) / ((2 ^ (-p).toNat : Nat) : Rat)

/-- Rounding to binary64, to nearest with ties to even: a significand of 53
bits at the exponent of `q`, and multiples of `2 ^ (-1074)` below the normal
range. The exponent has no upper bound here. -/
def nearest (q : Rat) : Rat :=
  if q = 0 then 0
  else
    let p : Int :=
      if exponent q.num.natAbs q.den - 52 < -1074 then -1074
      else exponent q.num.natAbs q.den - 52
    let s := scaled q.num.natAbs q.den p
    if q < 0 then - scale (roundHalfEven s.1 s.2) p else scale (roundHalfEven s.1 s.2) p

/-- The double that an operation with the exact result `q` gives, `none` when
it is an infinity: the rounded magnitude reaches `2 ^ 1024`. -/
def round (q : Rat) : Option Rat :=
  if -((2 ^ 1024 : Nat) : Rat) < nearest q ∧ nearest q < ((2 ^ 1024 : Nat) : Rat) then
    some (nearest q)
  else none

/-- The conversion of a `long` to `double`. -/
def ofInt (i : Int) : Rat := nearest (i : Rat)

/-- The sum of two finite doubles. -/
def add (a b : Rat) : Option Rat := round (a + b)

/-- The quotient of two finite doubles; a division by zero gives an infinity or
a NaN. -/
def div (a b : Rat) : Option Rat := if b = 0 then none else round (a / b)

end Double

/-! ## The evaluator -/

/-- The constant `MAX_EXPRESSION_VARIABLES` of `rate_filter.h`. -/
def MAX_EXPRESSION_VARIABLES : Nat := 20

/-- The class `RateFilter::Evaluator`. `m_expression` is kept as the text it was
compiled from; its symbol table binds `m_variableNames[i]` to `m_variables[i]`
for `i < m_varCount`. -/
structure Evaluator where
  m_expression : String
  m_variables : List Rat
  m_variableNames : List String
  m_varCount : Nat
deriving DecidableEq, Repr

namespace Evaluator

/-- The first loop of the constructor: every integer or float data-point
registers its bare name and its asset-qualified name; the loop breaks when
`m_varCount` equals `MAX_EXPRESSION_VARIABLES`. -/
def bindNames (assetName : String) :
    List Datapoint → List String → Nat → List String × Nat
  | [], names, varCount => (names, varCount)
  | dp :: rest, names, varCount =>
    let bound : List String × Nat :=
      match dp.data with
      | .T_INTEGER _ =>
        ((names.set varCount dp.name).set (varCount + 1) (assetName ++ "." ++ dp.name),
          varCount + 2)
      | .T_FLOAT _ =>
        ((names.set varCount dp.name).set (varCount + 1) (assetName ++ "." ++ dp.name),
          varCount + 2)
      | .T_STRING _ => (names, varCount)
    if bound.2 = MAX_EXPRESSION_VARIABLES then bound
    else bindNames assetName rest bound.1 bound.2

/-- The constructor `Evaluator(Reading *, const string& expression)`; `uninit`
is what the `m_variables` array holds when the object is allocated. -/
def construct (uninit : List Rat) (reading : Reading) (expression : String) : Evaluator :=
  let bound := bindNames reading.assetName reading.readingData
    (List.replicate MAX_EXPRESSION_VARIABLES "") 0
  { m_expression := expression
    m_variables := (List.range MAX_EXPRESSION_VARIABLES).map (fun i => uninit.getD i 0)
    m_variableNames := bound.1
    m_varCount := bound.2 }

/-- The inner loop of `evaluate`: for `i` from 0 to `m_varCount - 1`, slot `i`
receives `value` when `m_variableNames[i]` is `name`, and again when it is
`fullname`. -/
def assign (names : List String) (varCount : Nat) (name fullname : String) (value : Rat)
    (slots : List Rat) : List Rat :=
  (List.range varCount).foldl
    (fun vars i =>
      let vars := if names.getD i "" = name then vars.set i value else vars
      if names.getD i "" = fullname then vars.set i value else vars)
    slots

/-- The value that `evaluate` gives to the local `value` for a data-point:
`0.0` unless the data-point is an integer, which is converted to `double`, or a
float. -/
def valueOf : DatapointValue → Rat
  | .T_INTEGER i => Double.ofInt i
  | .T_FLOAT d => d
  | .T_STRING _ => 0

/-- The outer loop of `evaluate` over the data-points of the reading. -/
def rebind (e : Evaluator) (reading : Reading) : List Rat :=
  reading.readingData.foldl
    (fun vars dp =>
      assign e.m_variableNames e.m_varCount dp.name (reading.assetName ++ "." ++ dp.name)
        (valueOf dp.data) vars)
    e.m_variables

/-- The value of `m_expression.value()` with the slots as they stand. -/
def value (w : World) (e : Evaluator) : Rat :=
  w.exprValue (e.m_variableNames.take e.m_varCount) e.m_expression
    (e.m_variables.take e.m_varCount)

/-- The method `Evaluator::evaluate`: the evaluator with its slots rewritten and
the truth of `m_expression.value() != 0.0`. -/
def evaluate (w : World) (e : Evaluator) (reading : Reading) : Evaluator × Bool :=
  let e1 : Evaluator := { e with m_variables := rebind e reading }
  (e1, decide (value w e1 ≠ 0))

end Evaluator

/-! ## The filter -/

/-- The data members of `RateFilter` (the mutex and the base class apart).
`m_state` is `true` in the Triggered state. -/
structure RateFilter where
  m_trigger : String
  m_untrigger : String
  m_rate : Timeval
  m_lastSent : Timeval
  m_pretrigger : Int
  m_buffer : List Reading
  m_state : Bool
  m_pendingReconfigure : Bool
  m_triggerExpression : Option Evaluator
  m_untriggerExpression : Option Evaluator
  m_averageCount : Int
  m_averageMap : List (String × Rat)
  m_exclusions : List String
  m_pretriggerFilter : String
deriving DecidableEq, Repr

/-- How the embedding of a call can end without a result: the fuel is spent, the
C++ has undefined behaviour, or a double is an infinity or a NaN. -/
inductive Fault where
  | outOfFuel
  | undefinedBehaviour
  | notFinite
deriving DecidableEq, Repr

/-- The result of a handler: the filter, what is left of `readings`, and `out`. -/
abbrev Outcome := Except Fault (RateFilter × List Reading × List Reading)

namespace RateFilter

/-- The method `isExcluded`: a linear search of `m_exclusions`. -/
def isExcluded (f : RateFilter) (asset : String) : Bool :=
  f.m_exclusions.any (fun x => decide (asset = x))

/-- The eviction loop of `bufferPretrigger`: the front entry is removed while
its age `now - t1` is greater than `t2`. Taking the front of an empty buffer is
undefined (`none`). -/
def evictLoop (now t2 : Timeval) : List Reading → Option (List Reading)
  | [] => none
  | t :: rest =>
    if timercmpGt (timersub now t.userTimestamp) t2 then evictLoop now t2 rest
    else some (t :: rest)

/-- The method `bufferPretrigger`. -/
def bufferPretrigger (f : RateFilter) (reading : Reading) : Except Fault RateFilter :=
  if f.m_pretrigger = 0 then .ok f
  else
    let t2 : Timeval :=
      ⟨Int.tdiv f.m_pretrigger 1000, Int.tmod f.m_pretrigger 1000 * 1000⟩
    match evictLoop reading.userTimestamp t2 (f.m_buffer ++ [reading]) with
    | none => .error .undefinedBehaviour
    | some buffer => .ok { f with m_buffer := buffer }

/-- The one-argument `sendPretrigger(out)`: the whole buffer, oldest first. -/
def sendPretriggerAll (f : RateFilter) (out : List Reading) : RateFilter × List Reading :=
  ({ f with m_buffer := [] }, out ++ f.m_buffer)

/-- The first loop of `sendPretrigger(out, reading)`: the value of the last
data-point whose name is the pre-trigger filter. -/
def findMatch (pretriggerFilter : String) (dps : List Datapoint) : Option DatapointValue :=
  dps.foldl (fun m dp => if dp.name = pretriggerFilter then some dp.data else m) none

/-- The inner `for` loop of `sendPretrigger(out, reading)`, which computes
`addReading` for one buffered reading and stops at the first data-point that
sets it. -/
def addReadingScan (pretriggerFilter : String) (m : DatapointValue) : List Datapoint → Bool
  | [] => false
  | dp :: rest =>
    let addReading : Bool :=
      if dp.name = pretriggerFilter then
        match dp.data, m with
        | .T_INTEGER a, .T_INTEGER b => decide (a = b)
        | .T_FLOAT a, .T_FLOAT b => decide (a = b)
        | _, _ => false
      else false
    if addReading then true else addReadingScan pretriggerFilter m rest

/-- The `while (!m_buffer.empty())` loop of `sendPretrigger(out, reading)`. -/
def sendLoop (pretriggerFilter : String) (m : Option DatapointValue) :
    List Reading → List Reading → List Reading
  | [], out => out
  | r :: rest, out =>
    match m with
    | none => sendLoop pretriggerFilter m rest (out ++ [r])
    | some v =>
      if addReadingScan pretriggerFilter v r.readingData then
        sendLoop pretriggerFilter m rest (out ++ [r])
      else sendLoop pretriggerFilter m rest out

/-- The two-argument `sendPretrigger(out, reading)`. -/
def sendPretrigger (f : RateFilter) (out : List Reading) (reading : Reading) :
    RateFilter × List Reading :=
  let m : Option DatapointValue :=
    if f.m_pretriggerFilter ≠ "" then findMatch f.m_pretriggerFilter reading.readingData
    else none
  ({ f with m_buffer := [] }, sendLoop f.m_pretriggerFilter m f.m_buffer out)

/-- The place of a new key in a `std::map`, whose keys are kept in increasing
order. -/
def insertSorted (name : String) (value : Rat) : List (String × Rat) → List (String × Rat)
  | [] => [(name, value)]
  | p :: rest =>
    if name < p.1 then (name, value) :: p :: rest
    else p :: insertSorted name value rest

/-- The statement `it->second += value` of `addDataPoint` on the entry that
`find` returns, in double arithmetic; `none` when the sum is not finite. -/
def bump (name : String) (value : Rat) : List (String × Rat) → Option (List (String × Rat))
  | [] => some []
  | p :: rest =>
    if p.1 = name then (Double.add p.2 value).map (fun s => (p.1, s) :: rest)
    else (bump name value rest).map (fun t => p :: t)

/-- The method `addDataPoint`: `find`, then `+=` on the entry found or `insert`. -/
def addDataPoint (m : List (String × Rat)) (name : String) (value : Rat) :
    Option (List (String × Rat)) :=
  if m.any (fun p => decide (p.1 = name)) then bump name value m
  else some (insertSorted name value m)

/-- The loop of `averageReading`: one float data-point per key of the map with
the value `it->second / m_averageCount`, the count converted to `double` and
the quotient taken in double arithmetic; `none` when a quotient is not
finite. -/
def averageDatapoints (count : Int) : List (String × Rat) → Option (List Datapoint)
  | [] => some []
  | p :: rest =>
    match Double.div p.2 (Double.ofInt count), averageDatapoints count rest with
    | some a, some datapoints => some (⟨p.1, .T_FLOAT a⟩ :: datapoints)
    | _, _ => none

/-- The method `averageReading`: the data-points of `averageDatapoints`, every
sum and the count set to zero. -/
def averageReading (f : RateFilter) (templateReading : Reading) :
    Option (RateFilter × Reading) :=
  (averageDatapoints f.m_averageCount f.m_averageMap).map (fun datapoints =>
    ({ f with m_averageMap := f.m_averageMap.map (fun p => (p.1, 0)), m_averageCount := 0 },
      { assetName := templateReading.assetName
        readingData := datapoints
        userTimestamp := templateReading.userTimestamp
        timestamp := templateReading.timestamp }))

/-- The data-point loop of `addAverageReading`: an integer is converted to
`double` before it is added. -/
def foldDatapoints (m : List (String × Rat)) : List Datapoint → Option (List (String × Rat))
  | [] => some m
  | dp :: rest =>
    match dp.data with
    | .T_INTEGER i =>
      (addDataPoint m dp.name (Double.ofInt i)).bind (fun m1 => foldDatapoints m1 rest)
    | .T_FLOAT d => (addDataPoint m dp.name d).bind (fun m1 => foldDatapoints m1 rest)
    | .T_STRING _ => foldDatapoints m rest

/-- The method `addAverageReading`. -/
def addAverageReading (f : RateFilter) (reading : Reading) (out : List Reading) :
    Except Fault (RateFilter × List Reading) :=
  match foldDatapoints f.m_averageMap reading.readingData with
  | none => .error .notFinite
  | some m =>
    let f1 : RateFilter := { f with m_averageMap := m, m_averageCount := f.m_averageCount + 1 }
    if timercmpGt reading.userTimestamp (timeradd f1.m_lastSent f1.m_rate) then
      match averageReading f1 reading with
      | none => .error .notFinite
      | some r => .ok ({ r.1 with m_lastSent := reading.userTimestamp }, out ++ [r.2])
    else .ok (f1, out)

/-- The method `clearAverage`: every sum of the map becomes `0.0`. -/
def clearAverage (f : RateFilter) : RateFilter :=
  { f with m_averageMap := f.m_averageMap.map (fun p => (p.1, 0)) }

/-- The `for` loop of `triggeredIngest`. When the untrigger expression fires,
`erase(begin, begin + offset)` leaves the batch from the current reading on and
`next` stands for the call of `untriggeredIngest`. -/
def triggeredLoop (w : World) (next : RateFilter → List Reading → List Reading → Outcome) :
    RateFilter → List Reading → List Reading → Outcome
  | f, [], out => .ok (f, [], out)
  | f, reading :: rest, out =>
    match f.m_untriggerExpression with
    | none => .error .undefinedBehaviour
    | some e =>
      let r := e.evaluate w reading
      let f1 : RateFilter := { f with m_untriggerExpression := some r.1 }
      if r.2 then next { f1 with m_state := false } (reading :: rest) out
      else triggeredLoop w next f1 rest (out ++ [reading])

/-- The `for` loop of `untriggeredIngest`. When the trigger expression fires,
`erase(begin, begin + offset)` leaves the batch from the current reading on,
the buffer is sent with the triggering reading as the second argument of
`sendPretrigger`, and `next` stands for the call of `triggeredIngest`.
The source writes that argument `*reading` after the `erase`; the embedding
takes the iterator to denote the triggering reading still, as it does when
`offset` is 0. -/
def untriggeredLoop (w : World) (next : RateFilter → List Reading → List Reading → Outcome) :
    RateFilter → List Reading → List Reading → Outcome
  | f, [], out => .ok (f, [], out)
  | f, reading :: rest, out =>
    if f.isExcluded reading.assetName then untriggeredLoop w next f rest (out ++ [reading])
    else
      match f.m_triggerExpression with
      | none => .error .undefinedBehaviour
      | some e =>
        let r := e.evaluate w reading
        let f1 : RateFilter := { f with m_triggerExpression := some r.1 }
        if r.2 then
          let s := sendPretrigger (clearAverage { f1 with m_state := true }) out reading
          next s.1 (reading :: rest) s.2
        else
          match bufferPretrigger f1 reading with
          | .error x => .error x
          | .ok f2 =>
            if f2.m_rate.tv_sec ≠ 0 ∨ f2.m_rate.tv_usec ≠ 0 then
              match addAverageReading f2 reading out with
              | .error x => .error x
              | .ok a => untriggeredLoop w next a.1 rest a.2
            else untriggeredLoop w next f2 rest out

mutual

/-- The method `triggeredIngest`. -/
def triggeredIngest (w : World) : Nat → RateFilter → List Reading → List Reading → Outcome
  | 0, _, _, _ => .error .outOfFuel
  | fuel + 1, f, readings, out => triggeredLoop w (untriggeredIngest w fuel) f readings out

/-- The method `untriggeredIngest`. -/
def untriggeredIngest (w : World) : Nat → RateFilter → List Reading → List Reading → Outcome
  | 0, _, _, _ => .error .outOfFuel
  | fuel + 1, f, readings, out => untriggeredLoop w (triggeredIngest w fuel) f readings out

end

/-- The first block of `ingest`: a pending reconfiguration discards both
evaluators and clears the flag. -/
def discardPending (f : RateFilter) : RateFilter :=
  if f.m_pendingReconfigure then
    { f with m_triggerExpression := none, m_untriggerExpression := none,
             m_pendingReconfigure := false }
  else f

/-- The second block of `ingest`: without a trigger evaluator both evaluators
are built from the first reading of the batch. -/
def buildEvaluators (w : World) (f : RateFilter) (readings : List Reading) :
    Except Fault RateFilter :=
  match f.m_triggerExpression with
  | some _ => .ok f
  | none =>
    match readings with
    | [] => .error .undefinedBehaviour
    | firstReading :: _ =>
      .ok { f with
        m_triggerExpression := some (Evaluator.construct w.uninitTrigger firstReading f.m_trigger),
        m_untriggerExpression :=
          if f.m_untrigger ≠ "" then
            some (Evaluator.construct w.uninitUntrigger firstReading f.m_untrigger)
          else
            some (Evaluator.construct w.uninitUntrigger firstReading
              ("! (" ++ f.m_untrigger ++ ")")) }

/-- The method `ingest`. -/
def ingest (w : World) (fuel : Nat) (f : RateFilter) (readings : List Reading)
    (out : List Reading) : Outcome :=
  match buildEvaluators w (discardPending f) readings with
  | .error x => .error x
  | .ok f1 =>
    if f1.m_state then triggeredIngest w fuel f1 readings out
    else untriggeredIngest w fuel f1 readings out

end RateFilter

/-! ## Configuration -/

/-- What `handleConfig` sees of the document that rapidjson parses from the
`exclusions` item, the root being a JSON object: a parse error, an object
without an array member `exclusions`, or the elements of that array, where
`some s` is a string element and `none` an element of another kind. -/
inductive ExclusionsDocument where
  | parseError
  | notAnArray
  | array (values : List (Option String))
deriving DecidableEq, Repr

/-- The items of the configuration category that `handleConfig` reads.
`preTrigger` and `rate` are the integers that `strtol` returns for the item
text, as stored in the C `int`. -/
structure ConfigCategory where
  trigger : String
  untrigger : String
  preTrigger : Int
  rate : Int
  rateUnit : String
  pretriggerFilter : String
  exclusions : ExclusionsDocument
deriving DecidableEq, Repr

namespace RateFilter

/-- The rate block of `handleConfig`: the new `m_rate`, given the old one.
The C `/` on integers truncates toward zero (`Int.tdiv`). -/
def rateInterval (old : Timeval) (rate : Int) (unit : String) : Timeval :=
  if rate = 0 then ⟨0, 0⟩
  else if unit = "per second" then ⟨0, Int.tdiv 1000000 rate⟩
  else if unit = "per minute" then ⟨Int.tdiv 60 rate, 0⟩
  else if unit = "per hour" then ⟨Int.tdiv 3600 rate, 0⟩
  else if unit = "per day" then ⟨Int.tdiv (24 * 60 * 60) rate, 0⟩
  else old

/-- The method `handleConfig`. The statement
`string m_pretriggerFilter = config.getValue("pretriggerFilter");` declares a
local variable: the member `m_pretriggerFilter` is not assigned. The strings of
the exclusions array are appended to `m_exclusions` with `push_back`. -/
def handleConfig (f : RateFilter) (config : ConfigCategory) : RateFilter :=
  let f1 : RateFilter :=
    { f with m_trigger := config.trigger, m_untrigger := config.untrigger,
             m_pretrigger := config.preTrigger,
             m_rate := rateInterval f.m_rate config.rate config.rateUnit }
  let m_pretriggerFilter : String := config.pretriggerFilter
  match config.exclusions with
  | .array values => { f1 with m_exclusions := f1.m_exclusions ++ values.filterMap id }
  | .notAnArray => f1
  | .parseError => f1

/-- The method `reconfigure`. -/
def reconfigure (f : RateFilter) (newConfig : ConfigCategory) : RateFilter :=
  { handleConfig f newConfig with m_pendingReconfigure := true }

/-- The constructor `RateFilter(...)`. The members `m_rate` and
`m_pendingReconfigure` have no initial value in the source: `uninitRate` and
`uninitPending` are what they hold when the object is allocated. -/
def construct (uninitRate : Timeval) (uninitPending : Bool) (filterConfig : ConfigCategory) :
    RateFilter :=
  handleConfig
    { m_trigger := "", m_untrigger := "", m_rate := uninitRate, m_lastSent := ⟨0, 0⟩,
      m_pretrigger := 0, m_buffer := [], m_state := false,
      m_pendingReconfigure := uninitPending, m_triggerExpression := none,
      m_untriggerExpression := none, m_averageCount := 0, m_averageMap := [],
      m_exclusions := [], m_pretriggerFilter := "" }
    filterConfig

end RateFilter

/-! ## Observations used in the statements -/

/-- Equality of results is decidable. -/
instance instDecidableEqExcept {ε α : Type} [DecidableEq ε] [DecidableEq α] :
    DecidableEq (Except ε α) := fun a b =>
  match a, b with
  | .ok x, .ok y =>
    if h : x = y then isTrue (by rw [h]) else isFalse (fun h2 => h (Except.ok.inj h2))
  | .error x, .error y =>
    if h : x = y then isTrue (by rw [h]) else isFalse (fun h2 => h (Except.error.inj h2))
  | .ok _, .error _ => isFalse (fun h => by cases h)
  | .error _, .ok _ => isFalse (fun h => by cases h)

/-- The output of a call that returned. -/
def Outcome.output (o : Outcome) : Option (List Reading) :=
  match o with
  | .ok x => some x.2.2
  | .error _ => none

/-- The filter after a call that returned. -/
def Outcome.filter (o : Outcome) : Option RateFilter :=
  match o with
  | .ok x => some x.1
  | .error _ => none

namespace Evaluator

/-- The evaluator after `evaluate` has been called on each reading of the list
in turn. -/
def evaluateAll (w : World) (e : Evaluator) : List Reading → Evaluator
  | [] => e
  | r :: rest => evaluateAll w (e.evaluate w r).1 rest

/-- No call of `evaluate` returns true when it is called on each reading of the
list in turn. -/
def firesOnNone (w : World) (e : Evaluator) : List Reading → Bool
  | [] => true
  | r :: rest => !(e.evaluate w r).2 && firesOnNone w (e.evaluate w r).1 rest

end Evaluator

/-- The numeric value of a data-point as a `double`, `none` when it is neither
an integer nor a float. -/
def DatapointValue.numeric? : DatapointValue → Option Rat
  | .T_INTEGER i => some (Double.ofInt i)
  | .T_FLOAT d => some d
  | .T_STRING _ => none

/-- Among the data-points of the reading named `k` exactly one is an integer or
a float, and its value is `v`. -/
def Reading.hasNumeric (r : Reading) (k : String) (v : Rat) : Prop :=
  (r.readingData.filter (fun dp => decide (dp.name = k))).filterMap
    (fun dp => dp.data.numeric?) = [v]

/-- Whether a reading carries the numeric data-point is decidable. -/
instance Reading.decidableHasNumeric (r : Reading) (k : String) (v : Rat) :
    Decidable (r.hasNumeric k v) :=
  inferInstanceAs (Decidable
    ((r.readingData.filter (fun dp => decide (dp.name = k))).filterMap
      (fun dp => dp.data.numeric?) = [v]))

namespace RateFilter

/-- The continuation that returns at the hand-off: with it a loop yields the
filter, the batch and the output with which the other handler would be
called. -/
def stop (f : RateFilter) (readings out : List Reading) : Outcome :=
  .ok (f, readings, out)

/-- What a loop does with a continuation `next`, from what it does with `stop`:
a hand-off leaves a batch that is not empty, and the end of the loop leaves
an empty one. -/
def resume (next : RateFilter → List Reading → List Reading → Outcome) (o : Outcome) :
    Outcome :=
  match o with
  | .ok (f, r :: rest, out) => next f (r :: rest) out
  | .ok (f, [], out) => .ok (f, [], out)
  | .error x => .error x

/-- The filter once `ingest` has built both evaluators from a first reading. -/
def withEvaluators (w : World) (f : RateFilter) (firstReading : Reading) : RateFilter :=
  match buildEvaluators w f [firstReading] with
  | .ok g => g
  | .error _ => f

/-- The filter once both of its evaluators have evaluated the reading. -/
def evaluated (w : World) (f : RateFilter) (r : Reading) : RateFilter :=
  { f with
    m_triggerExpression := f.m_triggerExpression.map (fun e => (e.evaluate w r).1),
    m_untriggerExpression := f.m_untriggerExpression.map (fun e => (e.evaluate w r).1) }

/-- What holds of every filter that the constructor, `reconfigure` and `ingest`
produce: the two evaluator pointers are both set or both null, and the keys of
the averaging map are distinct. -/
def WellFormed (f : RateFilter) : Prop :=
  f.m_triggerExpression.isSome = f.m_untriggerExpression.isSome
    ∧ (f.m_averageMap.map Prod.fst).Nodup

end RateFilter

/-! ## A sample world and sample inputs -/

/-- The slot bound to a name in a symbol table, zero when the name is unbound. -/
def slotValue : List String → List Rat → String → Rat
  | n :: names, v :: vars, name => if n = name then v else slotValue names vars name
  | _, _, _ => 0

/-- A stand-in for exprtk that knows five comparison expressions (value 1 when
the comparison holds of the slot bound to the name, 0 otherwise), compiles no
other text and gives 0 to it. Fresh evaluator slots hold zero. -/
def sampleWorld : World where
  exprValue names text vars :=
    if text = "v > 50" then (if slotValue names vars "v" > 50 then 1 else 0)
    else if text = "v > 10" then (if slotValue names vars "v" > 10 then 1 else 0)
    else if text = "v < 5" then (if slotValue names vars "v" < 5 then 1 else 0)
    else if text = "mode > 1" then (if slotValue names vars "mode" > 1 then 1 else 0)
    else if text = "mode < 1" then (if slotValue names vars "mode" < 1 then 1 else 0)
    else 0
  compiles _ text := decide (text ∈ ["v > 50", "v > 10", "v < 5", "mode > 1", "mode < 1"])
  uninitTrigger := []
  uninitUntrigger := []

/-- A reading with one integer data-point and both timestamps at
`sec` seconds and `usec` microseconds. -/
def intReading (asset name : String) (v : Int) (sec usec : Int) : Reading :=
  ⟨asset, [⟨name, .T_INTEGER v⟩], ⟨sec, usec⟩, ⟨sec, usec⟩⟩

/-- The configuration trigger `v > 50`, untrigger `v < 5`, with the given
pre-trigger window, rate per second and exclusions. -/
def sampleConfig (preTrigger rate : Int) (exclusions : List (Option String)) : ConfigCategory :=
  ⟨"v > 50", "v < 5", preTrigger, rate, "per second", "", .array exclusions⟩

/-- A filter constructed from `sampleConfig`. -/
def sampleFilter (preTrigger rate : Int) (exclusions : List (Option String)) : RateFilter :=
  RateFilter.construct ⟨0, 0⟩ false (sampleConfig preTrigger rate exclusions)

/-- A reading of asset `pump` with `v = 1`, below both sample thresholds. -/
def lowReading : Reading := intReading "pump" "v" 1 100 0

/-- A reading of asset `pump` with `v = 100`, above both sample thresholds. -/
def highReading : Reading := intReading "pump" "v" 100 100 0

/-- A reading of asset `pump` with `v = 70` at 99 s. -/
def midReading : Reading := intReading "pump" "v" 70 99 0

/-- A Triggered filter with a pre-trigger window of 1000 ms, rate 0 and no
exclusion, its evaluators built. -/
def triggeredSample : RateFilter :=
  RateFilter.withEvaluators sampleWorld { sampleFilter 1000 0 [] with m_state := true } lowReading

/-- A Triggered filter with rate 0 that excludes the asset `pump`, its
evaluators built. -/
def triggeredExcluding : RateFilter :=
  RateFilter.withEvaluators sampleWorld
    { sampleFilter 0 0 [some "pump"] with m_state := true } lowReading

/-- A filter whose trigger `v > 50` and untrigger `v > 10` are both true of
`highReading`; rate 0, no pre-trigger window. -/
def oscillatingFilter : RateFilter :=
  RateFilter.construct ⟨0, 0⟩ false ⟨"v > 50", "v > 10", 0, 0, "per second", "", .array []⟩

/-- The oscillating filter in the Untriggered state after its evaluators have
seen `highReading`. -/
def oscillatingUntriggered : RateFilter :=
  RateFilter.evaluated sampleWorld
    (RateFilter.withEvaluators sampleWorld oscillatingFilter highReading) highReading

/-- The same filter in the Triggered state. -/
def oscillatingTriggered : RateFilter :=
  { oscillatingUntriggered with m_state := true }

/-- The oscillating filter at its first hand-off: only the trigger evaluator
has seen `highReading`. -/
def oscillatingFirst : RateFilter :=
  { RateFilter.withEvaluators sampleWorld oscillatingFilter highReading with
    m_triggerExpression := oscillatingUntriggered.m_triggerExpression, m_state := true }

/-- A filter configured with the trigger `v > 50` and no untrigger expression. -/
def defaultUntriggerFilter : RateFilter :=
  RateFilter.construct ⟨0, 0⟩ false ⟨"v > 50", "", 0, 0, "per second", "", .array []⟩

/-- A configuration with `pretriggerFilter = "mode"`, a window of 1000 ms and
rate 0. -/
def modeConfig : ConfigCategory :=
  ⟨"mode > 1", "mode < 1", 1000, 0, "per second", "mode", .array []⟩

/-- A filter constructed from `modeConfig` and reconfigured with it. -/
def modeFilter : RateFilter :=
  RateFilter.reconfigure (RateFilter.construct ⟨0, 0⟩ false modeConfig) modeConfig

/-- A reading with `mode = 1` at 100 s. -/
def modeOne : Reading := intReading "pump" "mode" 1 100 0

/-- A reading with `mode = 2` at 100.5 s. -/
def modeTwo : Reading := intReading "pump" "mode" 2 100 500000

/-- A batch that emits an average (10 at 100 s), folds one more reading (20),
triggers (100), untriggers (4 at 102 s) and emits again. -/
def averagingBatch : List Reading :=
  [intReading "pump" "v" 10 100 0, intReading "pump" "v" 20 100 500000,
   intReading "pump" "v" 100 100 600000, intReading "pump" "v" 4 102 0]

/-- The average that `averageReading` builds for `v` with the timestamps
`sec`. -/
def averageOf (v : Rat) (sec : Int) : Reading :=
  ⟨"pump", [⟨"v", .T_FLOAT v⟩], ⟨sec, 0⟩, ⟨sec, 0⟩⟩

/-- A reading of asset `pump` whose data-point `v` is a string. -/
def stringReading : Reading :=
  ⟨"pump", [⟨"v", .T_STRING "on"⟩], ⟨101, 0⟩, ⟨101, 0⟩⟩

/-- An evaluator built from a reading with `v = 7` that has evaluated it. -/
def sevenEvaluator : Evaluator :=
  ((Evaluator.construct [] (intReading "pump" "v" 7 100 0) "v > 50").evaluate sampleWorld
    (intReading "pump" "v" 7 100 0)).1

/-- The microseconds of the timestamp are in the range of a `struct timeval`
that the C library fills in. -/
def Timeval.normal (t : Timeval) : Prop :=
  0 ≤ t.tv_usec ∧ t.tv_usec < 1000000

/-- Whether a timestamp is in range is decidable. -/
instance Timeval.decidableNormal (t : Timeval) : Decidable t.normal :=
  inferInstanceAs (Decidable (0 ≤ t.tv_usec ∧ t.tv_usec < 1000000))

/-- The timestamp in microseconds. -/
def Timeval.micros (t : Timeval) : Int :=
  t.tv_sec * 1000000 + t.tv_usec

/-- The age of the entry `e` when `now` is buffered: the user timestamp of `now`
minus that of `e`, in microseconds. -/
def Reading.age (now e : Reading) : Int :=
  now.userTimestamp.micros - e.userTimestamp.micros

/-- The age of the entry `e` when `now` is buffered is strictly greater than the
window of `w` milliseconds. -/
def Reading.olderThan (w : Int) (now e : Reading) : Bool :=
  decide (now.age e > w * 1000)
/-- The readings of the list are in the order of their user timestamps: none is
older than one before it. -/
def inTimeOrder (l : List Reading) : Prop :=
  l.Pairwise (fun a b => a.userTimestamp.micros ≤ b.userTimestamp.micros)

/-- Three readings of `pump` pushed out of time order: 105.0 s, 104.0 s and
105.5 s. -/
def disorderedPushes : List Reading :=
  [intReading "pump" "v" 1 105 0, intReading "pump" "v" 2 104 0,
   intReading "pump" "v" 3 105 500000]

/-- Three readings of `pump` pushed at 100.0 s, 100.5 s and 101.2 s. -/
def orderedPushes : List Reading :=
  [intReading "pump" "v" 1 100 0, intReading "pump" "v" 2 100 500000,
   intReading "pump" "v" 3 101 200000]
namespace RateFilter

/-- The readings of a list buffered one after the other by `bufferPretrigger`. -/
def bufferAll : RateFilter → List Reading → Except Fault RateFilter
  | f, [] => .ok f
  | f, r :: rest =>
    match bufferPretrigger f r with
    | .ok g => bufferAll g rest
    | .error x => .error x

end RateFilter

/-- A filter with rate 0 configured with a pre-trigger window of -1 ms. -/
def negativeWindowFilter : RateFilter :=
  RateFilter.withEvaluators sampleWorld (sampleFilter (-1) 0 []) lowReading

/-- The sample world with the value that a failed compilation leaves in the
expression of exprtk: a text that does not compile evaluates to a value that
is not zero (the NaN of a null expression node compares unequal to `0.0`). -/
def nanWorld : World :=
  { sampleWorld with
    exprValue := fun names text vars =>
      if sampleWorld.compiles names text then sampleWorld.exprValue names text vars else 1 }

/-- A filter whose trigger text `v >` does not compile; untrigger `v < 5`,
rate 0, no window. -/
def brokenTriggerFilter : RateFilter :=
  RateFilter.construct ⟨0, 0⟩ false ⟨"v >", "v < 5", 0, 0, "per second", "", .array []⟩

/-- What `evaluate` never changes of an evaluator: the expression text, the
variable names and their number. -/
def Evaluator.shape (e : Evaluator) : String × List String × Nat :=
  (e.m_expression, e.m_variableNames, e.m_varCount)

/-- The text from which `ingest` compiles the untrigger evaluator. -/
def untriggerText (untrigger : String) : String :=
  if untrigger ≠ "" then untrigger else "! (" ++ untrigger ++ ")"

namespace RateFilter

/-- The filter `g` differs from `f` at most in what the handlers work on: the
state, the buffer, the accumulator and the slots of the evaluators. The
configured members, the pending flag and the shape of the evaluators are the
same. -/
def Frame (f g : RateFilter) : Prop :=
  g.m_trigger = f.m_trigger ∧ g.m_untrigger = f.m_untrigger ∧ g.m_rate = f.m_rate
    ∧ g.m_pretrigger = f.m_pretrigger ∧ g.m_pendingReconfigure = f.m_pendingReconfigure
    ∧ g.m_exclusions = f.m_exclusions ∧ g.m_pretriggerFilter = f.m_pretriggerFilter
    ∧ g.m_triggerExpression.map Evaluator.shape = f.m_triggerExpression.map Evaluator.shape
    ∧ g.m_untriggerExpression.map Evaluator.shape
        = f.m_untriggerExpression.map Evaluator.shape

/-- The filter with which `ingest` calls a handler when the pending flag is
set: both evaluators rebuilt from the first reading of the batch, the flag
cleared. -/
def rebuilt (w : World) (f : RateFilter) (firstReading : Reading) : RateFilter :=
  { f with
    m_triggerExpression := some (Evaluator.construct w.uninitTrigger firstReading f.m_trigger),
    m_untriggerExpression :=
      some (Evaluator.construct w.uninitUntrigger firstReading (untriggerText f.m_untrigger)),
    m_pendingReconfigure := false }

/-- The call of the handler of the current state at the end of `ingest`. -/
def dispatch (w : World) (fuel : Nat) (f : RateFilter) (readings out : List Reading) :
    Outcome :=
  if f.m_state then triggeredIngest w fuel f readings out
  else untriggeredIngest w fuel f readings out

end RateFilter

/-- A configuration with the trigger `v > 10` and the untrigger `v < 5`, no
window and rate 0. -/
def secondConfig : ConfigCategory :=
  ⟨"v > 10", "v < 5", 0, 0, "per second", "", .array []⟩

/-- The integer and float data-points of a reading, in data-point order. -/
def Reading.numericDatapoints (r : Reading) : List Datapoint :=
  r.readingData.filter (fun dp => dp.data.numeric?.isSome)

/-- The bare name of a data-point followed by its asset-qualified name. -/
def namePair (assetName : String) (dp : Datapoint) : List String :=
  [dp.name, assetName ++ "." ++ dp.name]

/-- The binding table that the specification gives for a sample reading: for
the first ten numeric data-points, in order, the bare name immediately
followed by the asset-qualified name. -/
def Reading.bindingTable (r : Reading) : List String :=
  (r.numericDatapoints.take 10).flatMap (namePair r.assetName)

/-- A reading of asset `pump` with twelve integer data-points `d0` .. `d11`
and a string data-point after the third. -/
def wideReading : Reading :=
  ⟨"pump",
    [⟨"d0", .T_INTEGER 0⟩, ⟨"d1", .T_INTEGER 1⟩, ⟨"d2", .T_INTEGER 2⟩, ⟨"s", .T_STRING "x"⟩,
     ⟨"d3", .T_INTEGER 3⟩, ⟨"d4", .T_INTEGER 4⟩, ⟨"d5", .T_INTEGER 5⟩, ⟨"d6", .T_INTEGER 6⟩,
     ⟨"d7", .T_INTEGER 7⟩, ⟨"d8", .T_INTEGER 8⟩, ⟨"d9", .T_INTEGER 9⟩, ⟨"d10", .T_INTEGER 10⟩,
     ⟨"d11", .T_INTEGER 11⟩],
    ⟨100, 0⟩, ⟨100, 0⟩⟩

/-- The data of the last data-point of the reading that is named `k`: in a
reading whose data-points have distinct names, the data of the data-point
named `k`. -/
def Reading.lastNamed (r : Reading) (k : String) : Option DatapointValue :=
  (r.readingData.reverse.find? (fun dp => decide (dp.name = k))).map Datapoint.data

/-- The reading carries a data-point named `k` of the kind and the value of
`v`. -/
def Reading.carries (r : Reading) (k : String) (v : DatapointValue) : Bool :=
  r.readingData.any (fun dp => decide (dp.name = k ∧ dp.data = v))

/-- A buffer of five readings: `mode = 1`, `mode = 2`, a reading without `mode`,
the float `mode = 1.0`, and `mode = 1` again. -/
def modeBuffer : List Reading :=
  [intReading "pump" "mode" 1 100 0, intReading "pump" "mode" 2 100 200000,
   intReading "pump" "v" 1 100 300000,
   ⟨"pump", [⟨"mode", .T_FLOAT 1⟩], ⟨100, 400000⟩, ⟨100, 400000⟩⟩,
   intReading "pump" "mode" 1 100 500000]

/-- A filter whose member `m_pretriggerFilter` holds `mode` and whose buffer is
`modeBuffer`. -/
def filteringSample : RateFilter :=
  { modeFilter with m_pretriggerFilter := "mode", m_buffer := modeBuffer }

/-- A filter constructed with the trigger `v > 50`, no pre-trigger window and
the given rate per minute. -/
def perMinuteFilter (rate : Int) : RateFilter :=
  RateFilter.construct ⟨0, 0⟩ false ⟨"v > 50", "v < 5", 0, rate, "per minute", "", .array []⟩

/-- Three readings of asset `pump`, two seconds apart, none of which fires the
trigger `v > 50`. -/
def slowBatch : List Reading :=
  [intReading "pump" "v" 1 100 0, intReading "pump" "v" 3 102 0, intReading "pump" "v" 5 104 0]

/-- The test `m_rate.tv_sec != 0 || m_rate.tv_usec != 0` that guards
`addAverageReading` in `untriggeredIngest`. -/
def RateFilter.averages (f : RateFilter) : Prop :=
  f.m_rate.tv_sec ≠ 0 ∨ f.m_rate.tv_usec ≠ 0

/-- The guard of the averaging path is decidable. -/
instance RateFilter.decidableAverages (f : RateFilter) : Decidable f.averages :=
  inferInstanceAs (Decidable (f.m_rate.tv_sec ≠ 0 ∨ f.m_rate.tv_usec ≠ 0))

open RateFilter

/-! ## The Triggered handler up to the untriggering reading -/

/-- One call of `triggeredIngest` is its loop, with `untriggeredIngest` on one
unit of fuel less as the hand-off. -/
theorem triggeredIngest_succ (w : World) (fuel : Nat) (f : RateFilter)
    (readings out : List Reading) :
    triggeredIngest w (fuel + 1) f readings out
      = triggeredLoop w (untriggeredIngest w fuel) f readings out := by
  rw [triggeredIngest]

/-- One call of `untriggeredIngest` is its loop, with `triggeredIngest` on one
unit of fuel less as the hand-off. -/
theorem untriggeredIngest_succ (w : World) (fuel : Nat) (f : RateFilter)
    (readings out : List Reading) :
    untriggeredIngest w (fuel + 1) f readings out
      = untriggeredLoop w (triggeredIngest w fuel) f readings out := by
  rw [untriggeredIngest]

/-- The Triggered loop forwards a run of readings on which the untrigger
expression stays false and goes on with the rest of the batch. -/
theorem triggeredLoop_quiet_run (w : World)
    (next : RateFilter → List Reading → List Reading → Outcome) (pre : List Reading) :
    ∀ (f : RateFilter) (e : Evaluator) (tail out : List Reading),
      f.m_untriggerExpression = some e → e.firesOnNone w pre = true →
      triggeredLoop w next f (pre ++ tail) out
        = triggeredLoop w next
            { f with m_untriggerExpression := some (e.evaluateAll w pre) } tail (out ++ pre) := by
  induction pre with
  | nil =>
    intro f e tail out he _
    simp [Evaluator.evaluateAll, ← he]
  | cons r rest ih =>
    intro f e tail out he hq
    simp only [Evaluator.firesOnNone, Bool.and_eq_true, Bool.not_eq_true'] at hq
    have h := ih { f with m_untriggerExpression := some (e.evaluate w r).1 }
      (e.evaluate w r).1 tail (out ++ [r]) rfl hq.2
    simp only [List.cons_append, triggeredLoop, he, hq.1]
    simpa [Evaluator.evaluateAll] using h

/-- The Triggered loop hands the batch over, untriggering reading first, when
the untrigger expression fires. -/
theorem triggeredLoop_fire (w : World)
    (next : RateFilter → List Reading → List Reading → Outcome)
    (f : RateFilter) (e : Evaluator) (r : Reading) (rest out : List Reading)
    (he : f.m_untriggerExpression = some e) (hr : (e.evaluate w r).2 = true) :
    triggeredLoop w next f (r :: rest) out
      = next { f with m_untriggerExpression := some (e.evaluate w r).1, m_state := false }
          (r :: rest) out := by
  simp [triggeredLoop, he, hr]

/-- Claim C1, as amended: when the untrigger expression is false on the readings
`pre` at positions 0..k-1 and fires on the reading `r` at position k,
`triggeredIngest` appends exactly `pre` to the output, sets the state to
Untriggered and calls the Untriggered handler on the batch from `r` on, the
untriggering reading included. -/
theorem triggeredIngest_hands_untriggering_reading_on (w : World) (fuel : Nat) (f : RateFilter)
    (e : Evaluator) (pre : List Reading) (r : Reading) (post out : List Reading)
    (he : f.m_untriggerExpression = some e)
    (hpre : e.firesOnNone w pre = true)
    (hr : ((e.evaluateAll w pre).evaluate w r).2 = true) :
    triggeredIngest w (fuel + 1) f (pre ++ r :: post) out
      = untriggeredIngest w fuel
          { f with m_untriggerExpression := some ((e.evaluateAll w pre).evaluate w r).1,
                   m_state := false }
          (r :: post) (out ++ pre) := by
  rw [triggeredIngest_succ, triggeredLoop_quiet_run w _ pre f e _ out he hpre,
    triggeredLoop_fire w _ _ (e.evaluateAll w pre) r post _ rfl hr]

/-- Claim C1, counterexample: in the Triggered state with a window of 1000 ms,
on the batch of one reading on which the untrigger expression fires the output
stays empty and the reading ends in the pre-trigger buffer: it is not
forwarded, and the Untriggered handler buffers it. -/
theorem untriggering_reading_is_not_forwarded :
    (triggeredIngest sampleWorld 2 triggeredSample [lowReading] []).output = some []
      ∧ Option.map RateFilter.m_buffer
          (triggeredIngest sampleWorld 2 triggeredSample [lowReading] []).filter
        = some [lowReading] := by
  decide!

/-- Claim C1, witness: the batch `v = 70`, `v = 1`, `v = 100` with the untrigger
`v < 5`. -/
theorem triggeredIngest_hands_untriggering_reading_on_witness :
    triggeredIngest sampleWorld 3 triggeredSample ([midReading] ++ lowReading :: [highReading]) []
      = untriggeredIngest sampleWorld 2
          { triggeredSample with
            m_untriggerExpression := some
              (((Evaluator.construct [] lowReading "v < 5").evaluateAll sampleWorld
                [midReading]).evaluate sampleWorld lowReading).1,
            m_state := false }
          (lowReading :: [highReading]) ([] ++ [midReading]) :=
  triggeredIngest_hands_untriggering_reading_on sampleWorld 2 triggeredSample
    (Evaluator.construct [] lowReading "v < 5") [midReading] lowReading [highReading] []
    (by decide!) (by decide!) (by decide!)

/-! ## Hand-offs without end -/

/-- The Triggered loop with any continuation is the loop run up to the
hand-off, followed by the continuation. -/
theorem triggeredLoop_resume (w : World)
    (next : RateFilter → List Reading → List Reading → Outcome) (readings : List Reading) :
    ∀ (f : RateFilter) (out : List Reading),
      triggeredLoop w next f readings out = resume next (triggeredLoop w stop f readings out) := by
  induction readings with
  | nil => intro f out; simp [triggeredLoop, resume]
  | cons r rest ih =>
    intro f out
    cases he : f.m_untriggerExpression with
    | none => simp [triggeredLoop, he, resume]
    | some e =>
      cases hr : (e.evaluate w r).2 with
      | true => simp [triggeredLoop, he, hr, resume, stop]
      | false => simp [triggeredLoop, he, hr, ih]

/-- The Untriggered loop with any continuation is the loop run up to the
hand-off, followed by the continuation. -/
theorem untriggeredLoop_resume (w : World)
    (next : RateFilter → List Reading → List Reading → Outcome) (readings : List Reading) :
    ∀ (f : RateFilter) (out : List Reading),
      untriggeredLoop w next f readings out
        = resume next (untriggeredLoop w stop f readings out) := by
  induction readings with
  | nil => intro f out; simp [untriggeredLoop, resume]
  | cons r rest ih =>
    intro f out
    cases hx : f.isExcluded r.assetName with
    | true => simp [untriggeredLoop, hx, ih]
    | false =>
      cases he : f.m_triggerExpression with
      | none => simp [untriggeredLoop, hx, he, resume]
      | some e =>
        cases hr : (e.evaluate w r).2 with
        | true => simp [untriggeredLoop, hx, he, hr, resume, stop]
        | false =>
          cases hb : bufferPretrigger { f with m_triggerExpression := some (e.evaluate w r).1 } r with
          | error x => simp [untriggeredLoop, hx, he, hr, hb, resume]
          | ok f2 =>
            by_cases hrate : f2.m_rate.tv_sec ≠ 0 ∨ f2.m_rate.tv_usec ≠ 0
            · cases ha : addAverageReading f2 r out with
              | error x => simp [untriggeredLoop, hx, he, hr, hb, hrate, ha, resume]
              | ok a =>
                simp only [untriggeredLoop, hx, he, hr, hb, hrate, ha]
                simp [ih]
            · simp only [untriggeredLoop, hx, he, hr, hb, hrate]
              simp [ih]

/-- When each loop hands the one-reading batch and the output back unchanged
and the two filters are exchanged by the hand-offs, neither handler returns,
whatever the fuel. -/
theorem oscillation_exhausts_fuel (w : World) (f g : RateFilter) (r : Reading)
    (out : List Reading)
    (hu : untriggeredLoop w stop f [r] out = .ok (g, [r], out))
    (ht : triggeredLoop w stop g [r] out = .ok (f, [r], out)) :
    ∀ fuel, untriggeredIngest w fuel f [r] out = .error .outOfFuel
      ∧ triggeredIngest w fuel g [r] out = .error .outOfFuel := by
  intro fuel
  induction fuel with
  | zero => simp [untriggeredIngest, triggeredIngest]
  | succ n ih =>
    constructor
    · rw [untriggeredIngest, untriggeredLoop_resume, hu]
      simpa [resume] using ih.2
    · rw [triggeredIngest, triggeredLoop_resume, ht]
      simpa [resume] using ih.1

/-- Claim C2, refuted on the code: with the trigger `v > 50` and the untrigger
`v > 10`, both true of the reading `v = 100`, `ingest` on the batch of that one
reading returns no result whatever the number of handler calls allowed: the
two handlers hand the same batch to each other for ever. -/
theorem ingest_oscillates_without_end (fuel : Nat) :
    ingest sampleWorld fuel oscillatingFilter [highReading] [] = .error .outOfFuel := by
  have hbuild : buildEvaluators sampleWorld (discardPending oscillatingFilter) [highReading]
      = .ok (withEvaluators sampleWorld oscillatingFilter highReading) := by decide!
  have hstate : (withEvaluators sampleWorld oscillatingFilter highReading).m_state = false := by
    decide!
  have h0 : untriggeredLoop sampleWorld stop
      (withEvaluators sampleWorld oscillatingFilter highReading) [highReading] []
        = .ok (oscillatingFirst, [highReading], []) := by decide!
  have h1 : triggeredLoop sampleWorld stop oscillatingFirst [highReading] []
      = .ok (oscillatingUntriggered, [highReading], []) := by decide!
  have hu : untriggeredLoop sampleWorld stop oscillatingUntriggered [highReading] []
      = .ok (oscillatingTriggered, [highReading], []) := by decide!
  have ht : triggeredLoop sampleWorld stop oscillatingTriggered [highReading] []
      = .ok (oscillatingUntriggered, [highReading], []) := by decide!
  have hloop := oscillation_exhausts_fuel sampleWorld _ _ _ _ hu ht
  unfold ingest
  rw [hbuild]
  simp only [hstate, Bool.false_eq_true, if_false]
  match fuel with
  | 0 => simp [untriggeredIngest]
  | 1 =>
    rw [untriggeredIngest, untriggeredLoop_resume, h0]
    simp [resume, triggeredIngest]
  | n + 2 =>
    rw [untriggeredIngest, untriggeredLoop_resume, h0]
    simp only [resume]
    rw [triggeredIngest, triggeredLoop_resume, h1]
    simp only [resume]
    exact (hloop n).1

/-! ## The default untrigger expression -/

/-- Claim C3, refuted on the code: with the trigger `v > 50` and an empty
untrigger text, the untrigger evaluator that `ingest` builds is compiled from
the text `! ()`, in which the trigger does not occur. -/
theorem default_untrigger_text_lacks_trigger :
    Option.map Evaluator.m_expression
        (Option.bind (ingest sampleWorld 1 defaultUntriggerFilter [lowReading] []).filter
          RateFilter.m_untriggerExpression)
      = some "! ()" := by
  decide!

/-! ## The pre-trigger filter -/

/-- Claim C4, refuted on the code: after construction and reconfiguration with
`pretriggerFilter = "mode"` the member `m_pretriggerFilter` is still empty, and
the buffered reading with `mode = 1` is sent to the output when the triggering
reading carries `mode = 2`. -/
theorem pretrigger_filter_is_never_configured :
    modeFilter.m_pretriggerFilter = ""
      ∧ (ingest sampleWorld 2 modeFilter [modeOne, modeTwo] []).output
          = some [modeOne, modeTwo] := by
  decide!

/-! ## The averaging accumulator -/

/-- Claim C5, refuted on the code: after the transition to Triggered on the
third reading of `averagingBatch` the fold count is 1, not 0, and the average
emitted for the fourth reading, the only one folded after the transition, is
`4 / 2 = 2`. -/
theorem clearAverage_keeps_fold_count :
    Option.map RateFilter.m_averageCount
        (ingest sampleWorld 2 (sampleFilter 0 1 []) (averagingBatch.take 3) []).filter = some 1
      ∧ (ingest sampleWorld 3 (sampleFilter 0 1 []) averagingBatch []).output
          = some [averageOf 10 100, intReading "pump" "v" 100 100 600000, averageOf 2 102] := by
  decide!

/-- The insertion of a new key keeps every entry of the map. -/
theorem insertSorted_perm (n : String) (v : Rat) (m : List (String × Rat)) :
    (insertSorted n v m).Perm ((n, v) :: m) := by
  induction m with
  | nil => simp [insertSorted]
  | cons p rest ih =>
    simp only [insertSorted]
    split
    · exact List.Perm.refl _
    · exact (List.Perm.cons p ih).trans (List.Perm.swap _ _ _)

/-- The statement `it->second += value` leaves the keys of the map as they
are. -/
theorem bump_keys (n : String) (v : Rat) :
    ∀ m m2 : List (String × Rat), bump n v m = some m2 → m2.map Prod.fst = m.map Prod.fst := by
  intro m
  induction m with
  | nil => intro m2 h; simp [bump] at h; subst h; rfl
  | cons p rest ih =>
    intro m2 h
    by_cases hp : p.1 = n
    · simp only [bump, hp, if_true, Option.map_eq_some'] at h
      obtain ⟨s, _, rfl⟩ := h
      simp [hp]
    · simp only [bump, hp, if_false, Option.map_eq_some'] at h
      obtain ⟨t, ht, rfl⟩ := h
      simp [ih t ht]

theorem any_key_iff (n : String) (m : List (String × Rat)) :
    m.any (fun p => decide (p.1 = n)) = true ↔ n ∈ m.map Prod.fst := by
  simp only [List.any_eq_true, decide_eq_true_eq, List.mem_map]

/-- The method `addDataPoint` keeps the keys of the map distinct. -/
theorem addDataPoint_keys_nodup (m m2 : List (String × Rat)) (n : String) (v : Rat)
    (h : (m.map Prod.fst).Nodup) (h2 : addDataPoint m n v = some m2) :
    (m2.map Prod.fst).Nodup := by
  unfold addDataPoint at h2
  split at h2
  · rw [bump_keys n v m m2 h2]; exact h
  · rename_i hfound
    simp only [Option.some.injEq] at h2
    subst h2
    rw [((insertSorted_perm n v m).map Prod.fst).nodup_iff]
    simp only [List.map_cons, List.nodup_cons]
    exact ⟨fun hmem => hfound ((any_key_iff n m).mpr hmem), h⟩

theorem addDataPoint_keys_mem (m m2 : List (String × Rat)) (n : String) (v : Rat) (k : String)
    (h2 : addDataPoint m n v = some m2) :
    k ∈ m2.map Prod.fst ↔ k = n ∨ k ∈ m.map Prod.fst := by
  unfold addDataPoint at h2
  split at h2
  · rename_i hfound
    rw [bump_keys n v m m2 h2]
    constructor
    · exact Or.inr
    · rintro (h | h)
      · rw [h]; exact (any_key_iff n m).mp hfound
      · exact h
  · simp only [Option.some.injEq] at h2
    subst h2
    rw [((insertSorted_perm n v m).map Prod.fst).mem_iff]
    simp

/-- The data-point loop of `addAverageReading` keeps the keys of the map
distinct and keeps every key. -/
theorem foldDatapoints_keys (k : String) (dps : List Datapoint) :
    ∀ m m2 : List (String × Rat), (m.map Prod.fst).Nodup → foldDatapoints m dps = some m2 →
      (m2.map Prod.fst).Nodup
        ∧ (k ∈ m.map Prod.fst → k ∈ m2.map Prod.fst)
        ∧ ((∃ dp ∈ dps, dp.name = k ∧ dp.data.numeric? ≠ none) → k ∈ m2.map Prod.fst) := by
  induction dps with
  | nil =>
    intro m m2 h h2
    simp only [foldDatapoints, Option.some.injEq] at h2
    subst h2
    exact ⟨h, fun hk => hk, fun ⟨dp, hdp, _⟩ => by simp at hdp⟩
  | cons dp rest ih =>
    intro m m2 h h2
    have hstep : ∀ v : Rat, dp.data.numeric? = some v →
        (addDataPoint m dp.name v).bind (fun m1 => foldDatapoints m1 rest) = some m2 →
        (m2.map Prod.fst).Nodup
          ∧ (k ∈ m.map Prod.fst → k ∈ m2.map Prod.fst)
          ∧ ((∃ x ∈ dp :: rest, x.name = k ∧ x.data.numeric? ≠ none) →
              k ∈ m2.map Prod.fst) := by
      intro v hv hb
      obtain ⟨m1, hm1, hrest⟩ := Option.bind_eq_some.mp hb
      obtain ⟨h1, h3, h4⟩ := ih m1 m2 (addDataPoint_keys_nodup m m1 dp.name v h hm1) hrest
      refine ⟨h1, ?_, ?_⟩
      · intro hk
        exact h3 ((addDataPoint_keys_mem m m1 dp.name v k hm1).mpr (Or.inr hk))
      · rintro ⟨x, hx, hxk, hxn⟩
        rcases List.mem_cons.mp hx with hx | hx
        · subst hx
          exact h3 ((addDataPoint_keys_mem m m1 x.name v k hm1).mpr (Or.inl hxk.symm))
        · exact h4 ⟨x, hx, hxk, hxn⟩
    cases hd : dp.data with
    | T_STRING t =>
      simp only [foldDatapoints, hd] at h2
      obtain ⟨h1, h3, h4⟩ := ih m m2 h h2
      refine ⟨h1, h3, ?_⟩
      rintro ⟨x, hx, hxk, hxn⟩
      rcases List.mem_cons.mp hx with hx | hx
      · subst hx; simp [hd, DatapointValue.numeric?] at hxn
      · exact h4 ⟨x, hx, hxk, hxn⟩
    | T_INTEGER i =>
      simp only [foldDatapoints, hd] at h2
      exact hstep (Double.ofInt i) (by simp [hd, DatapointValue.numeric?]) h2
    | T_FLOAT d =>
      simp only [foldDatapoints, hd] at h2
      exact hstep d (by simp [hd, DatapointValue.numeric?]) h2

/-- The Untriggered loop forwards a batch of excluded readings and leaves the
filter as it is. -/
theorem untriggeredLoop_all_excluded (w : World)
    (next : RateFilter → List Reading → List Reading → Outcome) (f : RateFilter)
    (readings : List Reading) :
    ∀ (out : List Reading), (∀ r ∈ readings, f.isExcluded r.assetName = true) →
      untriggeredLoop w next f readings out = .ok (f, [], out ++ readings) := by
  induction readings with
  | nil => intro out _; simp [untriggeredLoop]
  | cons r rest ih =>
    intro out h
    have hr : f.isExcluded r.assetName = true := h r (List.mem_cons_self r rest)
    have hrest : ∀ x ∈ rest, f.isExcluded x.assetName = true :=
      fun x hx => h x (List.mem_cons_of_mem r hx)
    simp [untriggeredLoop, hr, ih (out ++ [r]) hrest]

/-- The Triggered loop followed by the Untriggered handler forwards a batch of
excluded readings. -/
theorem triggeredLoop_all_excluded (w : World) (fuel : Nat) (readings : List Reading) :
    ∀ (f : RateFilter) (out : List Reading), f.m_untriggerExpression.isSome = true →
      (∀ r ∈ readings, f.isExcluded r.assetName = true) →
      ∃ g, triggeredLoop w (untriggeredIngest w (fuel + 1)) f readings out
        = .ok (g, [], out ++ readings) := by
  induction readings with
  | nil => intro f out _ _; exact ⟨f, by simp [triggeredLoop]⟩
  | cons r rest ih =>
    intro f out hsome h
    obtain ⟨e, he⟩ := Option.isSome_iff_exists.mp hsome
    cases hr : (e.evaluate w r).2 with
    | true =>
      refine ⟨{ f with m_untriggerExpression := some (e.evaluate w r).1, m_state := false }, ?_⟩
      simp only [triggeredLoop, he, hr, if_true]
      rw [untriggeredIngest]
      exact untriggeredLoop_all_excluded w _ _ (r :: rest) out h
    | false =>
      have hrest : ∀ x ∈ rest,
          isExcluded { f with m_untriggerExpression := some (e.evaluate w r).1 } x.assetName
            = true := fun x hx => h x (List.mem_cons_of_mem r hx)
      obtain ⟨g, hg⟩ := ih { f with m_untriggerExpression := some (e.evaluate w r).1 }
        (out ++ [r]) rfl hrest
      refine ⟨g, ?_⟩
      simp only [triggeredLoop, he, hr]
      simpa using hg

/-- The first two blocks of `ingest` succeed on a non-empty batch, keep the
state and the exclusions, and leave an untrigger evaluator. -/
theorem buildEvaluators_discardPending (w : World) (f : RateFilter) (r : Reading)
    (rest : List Reading)
    (hboth : f.m_triggerExpression.isSome = f.m_untriggerExpression.isSome) :
    ∃ g, buildEvaluators w (discardPending f) (r :: rest) = .ok g
      ∧ g.m_state = f.m_state ∧ g.m_exclusions = f.m_exclusions
      ∧ g.m_untriggerExpression.isSome = true := by
  have hbuilt : ∀ h : RateFilter, h.m_triggerExpression = none →
      ∃ g, buildEvaluators w h (r :: rest) = .ok g
        ∧ g.m_state = h.m_state ∧ g.m_exclusions = h.m_exclusions
        ∧ g.m_untriggerExpression.isSome = true := by
    intro h hnone
    simp only [buildEvaluators, hnone]
    refine ⟨_, rfl, rfl, rfl, ?_⟩
    by_cases hu : h.m_untrigger = "" <;> simp [hu]
  cases hp : f.m_pendingReconfigure with
  | true =>
    obtain ⟨g, hg, h1, h2, h3⟩ := hbuilt (discardPending f) (by simp [discardPending, hp])
    exact ⟨g, hg, by simpa [discardPending, hp] using h1,
      by simpa [discardPending, hp] using h2, h3⟩
  | false =>
    have hd : discardPending f = f := by simp [discardPending, hp]
    rw [hd]
    cases ht : f.m_triggerExpression with
    | none => exact hbuilt f ht
    | some e =>
      refine ⟨f, by simp [buildEvaluators, ht], rfl, rfl, ?_⟩
      rw [← hboth, ht]; rfl

/-- Claim C7: in either state, `ingest` on a non-empty batch whose readings all
carry an excluded asset returns, with an empty batch and the output extended by
exactly the readings of the batch in their order. Two handler calls are
enough. -/
theorem ingest_forwards_excluded_batch (w : World) (fuel : Nat) (f : RateFilter)
    (readings out : List Reading)
    (hne : readings ≠ [])
    (hex : ∀ r ∈ readings, f.isExcluded r.assetName = true)
    (hboth : f.m_triggerExpression.isSome = f.m_untriggerExpression.isSome) :
    ∃ g, ingest w (fuel + 2) f readings out = .ok (g, [], out ++ readings) := by
  cases readings with
  | nil => exact absurd rfl hne
  | cons r rest =>
    obtain ⟨g, hg, _, hexcl, hsome⟩ := buildEvaluators_discardPending w f r rest hboth
    have hex2 : ∀ x ∈ r :: rest, g.isExcluded x.assetName = true := by
      intro x hx
      have := hex x hx
      simpa [isExcluded, hexcl] using this
    unfold ingest
    rw [hg]
    cases hs : g.m_state with
    | true =>
      simp only [hs, if_true]
      rw [triggeredIngest]
      exact triggeredLoop_all_excluded w fuel (r :: rest) g out hsome hex2
    | false =>
      refine ⟨g, ?_⟩
      simp only [hs, Bool.false_eq_true, if_false]
      rw [untriggeredIngest]
      exact untriggeredLoop_all_excluded w _ g (r :: rest) out hex2

/-- Claim C7, witness: a Triggered filter that excludes `pump`, and a batch of
two readings of `pump`. -/
theorem ingest_forwards_excluded_batch_witness :
    ∃ g, ingest sampleWorld 2 triggeredExcluding [lowReading, highReading] []
      = .ok (g, [], [] ++ [lowReading, highReading]) :=
  ingest_forwards_excluded_batch sampleWorld 0 triggeredExcluding [lowReading, highReading] []
    (by decide!) (by decide!) (by decide!)

/-- Claim C8, as amended: in the Untriggered handler a reading whose asset is
excluded is appended to the output and the scan goes on with the same filter:
the state, the evaluators, the buffer and the accumulator are untouched. -/
theorem untriggeredIngest_skips_excluded (w : World) (fuel : Nat) (f : RateFilter)
    (r : Reading) (rest out : List Reading)
    (hex : f.isExcluded r.assetName = true) :
    untriggeredIngest w (fuel + 1) f (r :: rest) out
      = untriggeredIngest w (fuel + 1) f rest (out ++ [r]) := by
  rw [untriggeredIngest, untriggeredIngest]
  simp [untriggeredLoop, hex]

/-- Claim C8, counterexample: in the Triggered state the untrigger expression
`v < 5` is evaluated against a reading of the excluded asset `pump` and
switches the filter to Untriggered. -/
theorem excluded_reading_untriggers :
    triggeredExcluding.isExcluded lowReading.assetName = true
      ∧ triggeredExcluding.m_state = true
      ∧ Option.map RateFilter.m_state
          (triggeredIngest sampleWorld 2 triggeredExcluding [lowReading] []).filter
        = some false := by
  decide!

/-- Claim C8, witness: an Untriggered filter that excludes `pump` and a reading
of `pump` on which the trigger expression would fire. -/
theorem untriggeredIngest_skips_excluded_witness :
    untriggeredIngest sampleWorld 1 (sampleFilter 0 0 [some "pump"]) (highReading :: []) []
      = untriggeredIngest sampleWorld 1 (sampleFilter 0 0 [some "pump"]) []
          ([] ++ [highReading]) :=
  untriggeredIngest_skips_excluded sampleWorld 0 (sampleFilter 0 0 [some "pump"]) highReading
    [] [] (by decide!)

/-- Claim C9, refuted on the code: a filter that excludes `pump`, reconfigured
with the exclusions array `["fan"]`, has the exclusion list `pump`, `fan` and
still excludes `pump`. -/
theorem reconfigure_keeps_old_exclusions :
    (reconfigure (sampleFilter 0 0 [some "pump"]) (sampleConfig 0 0 [some "fan"])).m_exclusions
        = ["pump", "fan"]
      ∧ (reconfigure (sampleFilter 0 0 [some "pump"]) (sampleConfig 0 0 [some "fan"])).isExcluded
          "pump" = true := by
  decide!

/-! ## The evaluator and data-points that are not numbers -/

/-- Claim C10, refuted on the code: an evaluator whose variables `v` and
`pump.v` hold 7 evaluates a reading whose only data-point is the string `v`;
both slots hold 0 afterwards. -/
theorem evaluate_zeroes_slot_of_string_datapoint :
    sevenEvaluator.m_variableNames.take 2 = ["v", "pump.v"]
      ∧ sevenEvaluator.m_variables.take 2 = [7, 7]
      ∧ (sevenEvaluator.evaluate sampleWorld stringReading).1.m_variables.take 2 = [0, 0] := by
  decide!

/-! ## Filters that the program can reach -/

/-- The constructor yields a well-formed filter. -/
theorem wellFormed_construct (uninitRate : Timeval) (uninitPending : Bool)
    (config : ConfigCategory) : (construct uninitRate uninitPending config).WellFormed := by
  unfold construct handleConfig WellFormed
  cases config.exclusions <;> simp

/-- The method `reconfigure` keeps a filter well formed. -/
theorem wellFormed_reconfigure (f : RateFilter) (config : ConfigCategory)
    (h : f.WellFormed) : (reconfigure f config).WellFormed := by
  unfold reconfigure handleConfig WellFormed
  unfold WellFormed at h
  cases config.exclusions <;> exact h

theorem wellFormed_buildEvaluators (w : World) (f g : RateFilter) (readings : List Reading)
    (h : f.WellFormed) (hb : buildEvaluators w (discardPending f) readings = .ok g) :
    g.WellFormed := by
  have hd : (discardPending f).WellFormed := by
    unfold discardPending
    split
    · exact ⟨rfl, h.2⟩
    · exact h
  revert hb
  generalize discardPending f = d at hd ⊢
  unfold buildEvaluators
  cases ht : d.m_triggerExpression with
  | some e =>
    intro hb
    simp only [Except.ok.injEq] at hb
    exact hb ▸ hd
  | none =>
    cases readings with
    | nil => intro hb; simp at hb
    | cons r rest =>
      intro hb
      simp only [Except.ok.injEq] at hb
      subst hb
      refine ⟨?_, hd.2⟩
      by_cases hu : d.m_untrigger = "" <;> simp [hu]

theorem wellFormed_addAverageReading (f : RateFilter) (r : Reading) (out : List Reading)
    (a : RateFilter × List Reading) (h : f.WellFormed) (ha : addAverageReading f r out = .ok a) :
    a.1.WellFormed := by
  simp only [addAverageReading] at ha
  cases hm : foldDatapoints f.m_averageMap r.readingData with
  | none => simp [hm] at ha
  | some m =>
    have hn := (foldDatapoints_keys "" r.readingData f.m_averageMap m h.2 hm).1
    simp only [hm] at ha
    split at ha
    · simp only [averageReading] at ha
      cases hd : averageDatapoints (f.m_averageCount + 1) m with
      | none => simp [hd] at ha
      | some dps =>
        simp only [hd, Option.map_some', Except.ok.injEq] at ha
        subst ha
        refine ⟨h.1, ?_⟩
        simp only [List.map_map]
        exact hn
    · simp only [Except.ok.injEq] at ha
      subst ha
      exact ⟨h.1, hn⟩

theorem wellFormed_bufferPretrigger (f g : RateFilter) (r : Reading)
    (h : f.WellFormed) (hb : bufferPretrigger f r = .ok g) : g.WellFormed := by
  simp only [bufferPretrigger] at hb
  split at hb
  · simp only [Except.ok.injEq] at hb
    exact hb ▸ h
  · split at hb
    · simp at hb
    · simp only [Except.ok.injEq] at hb
      exact hb ▸ h

theorem wellFormed_triggeredLoop (w : World)
    (next : RateFilter → List Reading → List Reading → Outcome)
    (hnext : ∀ f rs out x, f.WellFormed → next f rs out = .ok x → x.1.WellFormed)
    (readings : List Reading) :
    ∀ (f : RateFilter) (out : List Reading) (x : RateFilter × List Reading × List Reading),
      f.WellFormed → triggeredLoop w next f readings out = .ok x → x.1.WellFormed := by
  induction readings with
  | nil =>
    intro f out x h hx
    simp only [triggeredLoop, Except.ok.injEq] at hx
    exact hx ▸ h
  | cons r rest ih =>
    intro f out x h hx
    cases he : f.m_untriggerExpression with
    | none => simp [triggeredLoop, he] at hx
    | some e =>
      have h1 : WellFormed { f with m_untriggerExpression := some (e.evaluate w r).1 } :=
        ⟨by rw [h.1, he]; rfl, h.2⟩
      cases hr : (e.evaluate w r).2 with
      | true =>
        simp only [triggeredLoop, he, hr, if_true] at hx
        refine hnext _ _ _ x ?_ hx
        exact ⟨h1.1, h1.2⟩
      | false =>
        simp only [triggeredLoop, he, hr, Bool.false_eq_true, if_false] at hx
        exact ih _ _ x h1 hx

theorem wellFormed_untriggeredLoop (w : World)
    (next : RateFilter → List Reading → List Reading → Outcome)
    (hnext : ∀ f rs out x, f.WellFormed → next f rs out = .ok x → x.1.WellFormed)
    (readings : List Reading) :
    ∀ (f : RateFilter) (out : List Reading) (x : RateFilter × List Reading × List Reading),
      f.WellFormed → untriggeredLoop w next f readings out = .ok x → x.1.WellFormed := by
  induction readings with
  | nil =>
    intro f out x h hx
    simp only [untriggeredLoop, Except.ok.injEq] at hx
    exact hx ▸ h
  | cons r rest ih =>
    intro f out x h hx
    cases hex : f.isExcluded r.assetName with
    | true =>
      simp only [untriggeredLoop, hex, if_true] at hx
      exact ih _ _ x h hx
    | false =>
      cases he : f.m_triggerExpression with
      | none => simp [untriggeredLoop, hex, he] at hx
      | some e =>
        have h1 : WellFormed { f with m_triggerExpression := some (e.evaluate w r).1 } :=
          ⟨by rw [← h.1, he]; rfl, h.2⟩
        cases hr : (e.evaluate w r).2 with
        | true =>
          simp only [untriggeredLoop, hex, he, hr, Bool.false_eq_true, if_false, if_true] at hx
          refine hnext _ _ _ x ?_ hx
          refine ⟨h1.1, ?_⟩
          simp only [sendPretrigger, clearAverage, List.map_map]
          exact h.2
        | false =>
          simp only [untriggeredLoop, hex, he, hr, Bool.false_eq_true, if_false] at hx
          cases hb : bufferPretrigger
              { f with m_triggerExpression := some (e.evaluate w r).1 } r with
          | error y => simp [hb] at hx
          | ok f2 =>
            have h2 := wellFormed_bufferPretrigger _ f2 r h1 hb
            simp only [hb] at hx
            split at hx
            · cases ha : addAverageReading f2 r out with
              | error y => simp [ha] at hx
              | ok a =>
                simp only [ha] at hx
                exact ih _ _ x (wellFormed_addAverageReading f2 r out a h2 ha) hx
            · exact ih _ _ x h2 hx

theorem wellFormed_handlers (w : World) (fuel : Nat) :
    (∀ f rs out x, f.WellFormed → triggeredIngest w fuel f rs out = .ok x → x.1.WellFormed)
      ∧ (∀ f rs out x, f.WellFormed → untriggeredIngest w fuel f rs out = .ok x →
          x.1.WellFormed) := by
  induction fuel with
  | zero =>
    constructor <;> intro f rs out x _ hx
    · simp [triggeredIngest] at hx
    · simp [untriggeredIngest] at hx
  | succ n ih =>
    constructor <;> intro f rs out x h hx
    · rw [triggeredIngest] at hx
      exact wellFormed_triggeredLoop w _ ih.2 rs f out x h hx
    · rw [untriggeredIngest] at hx
      exact wellFormed_untriggeredLoop w _ ih.1 rs f out x h hx

/-- A result of `ingest` on a well-formed filter is a well-formed filter. -/
theorem wellFormed_ingest (w : World) (fuel : Nat) (f : RateFilter)
    (readings out : List Reading) (x : RateFilter × List Reading × List Reading)
    (h : f.WellFormed) (hx : ingest w fuel f readings out = .ok x) : x.1.WellFormed := by
  unfold ingest at hx
  cases hb : buildEvaluators w (discardPending f) readings with
  | error y => simp [hb] at hx
  | ok g =>
    have hg := wellFormed_buildEvaluators w f g readings h hb
    simp only [hb] at hx
    split at hx
    · exact (wellFormed_handlers w fuel).1 g readings out x hg hx
    · exact (wellFormed_handlers w fuel).2 g readings out x hg hx

/-! ## The pre-trigger buffer -/

/-- On timestamps in range, the test `timercmp(&res, &t2, >)` of
`bufferPretrigger` for a window of `w > 0` milliseconds is the comparison of the
age in microseconds with `1000 * w`. -/
theorem timercmpGt_age (w : Int) (hw : 0 < w) (a b : Timeval) (ha : a.normal) (hb : b.normal) :
    timercmpGt (timersub a b) ⟨Int.tdiv w 1000, Int.tmod w 1000 * 1000⟩
      = decide (a.micros - b.micros > w * 1000) := by
  have hq : Int.tdiv w 1000 = w / 1000 := Int.tdiv_eq_ediv (by omega) (by omega)
  have hm : Int.tmod w 1000 = w % 1000 := Int.tmod_eq_emod (by omega) (by omega)
  obtain ⟨ha1, ha2⟩ := ha
  obtain ⟨hb1, hb2⟩ := hb
  rw [hq, hm]
  by_cases hu : a.tv_usec - b.tv_usec < 0
  · by_cases hs : a.tv_sec - b.tv_sec - 1 = w / 1000
    · simp only [timercmpGt, timersub, Timeval.micros, hu, hs, if_true, decide_eq_decide]
      omega
    · simp only [timercmpGt, timersub, Timeval.micros, hu, hs, if_true, if_false,
        decide_eq_decide]
      omega
  · by_cases hs : a.tv_sec - b.tv_sec = w / 1000
    · simp only [timercmpGt, timersub, Timeval.micros, hu, hs, if_true, if_false,
        decide_eq_decide]
      omega
    · simp only [timercmpGt, timersub, Timeval.micros, hu, hs, if_false, decide_eq_decide]
      omega
/-- With a window of `w > 0` milliseconds and timestamps in range, the eviction
loop removes the longest run of entries at the front that are older than the
window, and stops at the latest on the reading just buffered. -/
theorem evictLoop_eq_dropWhile (w : Int) (hw : 0 < w) (r : Reading)
    (hr : r.userTimestamp.normal) (l : List Reading)
    (hl : ∀ e ∈ l, e.userTimestamp.normal) :
    evictLoop r.userTimestamp ⟨Int.tdiv w 1000, Int.tmod w 1000 * 1000⟩ (l ++ [r])
      = some ((l ++ [r]).dropWhile (Reading.olderThan w r)) := by
  have hcmp : ∀ e : Reading, e.userTimestamp.normal →
      timercmpGt (timersub r.userTimestamp e.userTimestamp)
        ⟨Int.tdiv w 1000, Int.tmod w 1000 * 1000⟩ = Reading.olderThan w r e := by
    intro e he
    rw [timercmpGt_age w hw _ _ hr he]
    rfl
  induction l with
  | nil =>
    have h0 : Reading.olderThan w r r = false := by
      simp only [Reading.olderThan, Reading.age, decide_eq_false_iff_not]
      omega
    simp [evictLoop, hcmp r hr, h0, List.dropWhile_cons]
  | cons e rest ih =>
    have he : e.userTimestamp.normal := hl e (List.mem_cons_self e rest)
    have ih2 := ih (fun x hx => hl x (List.mem_cons_of_mem e hx))
    simp only [List.cons_append, evictLoop, hcmp e he, List.dropWhile_cons]
    cases hold : Reading.olderThan w r e with
    | true => simpa using ih2
    | false => simp

/-- With a window of `w > 0` milliseconds and timestamps in range,
`bufferPretrigger` returns, and the buffer is the old one followed by the
reading, less the entries at the front that are older than the window. -/
theorem bufferPretrigger_of_pos (f : RateFilter) (r : Reading) (hw : 0 < f.m_pretrigger)
    (hr : r.userTimestamp.normal) (hb : ∀ e ∈ f.m_buffer, e.userTimestamp.normal) :
    bufferPretrigger f r
      = .ok { f with
          m_buffer := List.dropWhile (Reading.olderThan f.m_pretrigger r)
            (f.m_buffer ++ [r]) } := by
  have hne : f.m_pretrigger ≠ 0 := by omega
  simp only [bufferPretrigger, hne, if_false,
    evictLoop_eq_dropWhile f.m_pretrigger hw r hr f.m_buffer hb]

/-- Claim C12: `bufferPretrigger` returns the filter as it is when the window is
zero. For a window of `w > 0` milliseconds and timestamps in range it leaves the
buffer followed by the reading, less the longest run of entries at the front
whose age is greater than `w` milliseconds; an entry of age exactly `w` is
kept. With a window of 1000 ms, pushes at `t`, `t` + 500 ms and `t` + 1200 ms
into an empty buffer leave the last two readings, in order. -/
theorem bufferPretrigger_evicts_front_run :
    (∀ (f : RateFilter) (r : Reading), f.m_pretrigger = 0 → bufferPretrigger f r = .ok f)
      ∧ (∀ (f : RateFilter) (r : Reading), 0 < f.m_pretrigger →
          r.userTimestamp.normal → (∀ e ∈ f.m_buffer, e.userTimestamp.normal) →
          bufferPretrigger f r
            = .ok { f with
                m_buffer := List.dropWhile (Reading.olderThan f.m_pretrigger r)
                  (f.m_buffer ++ [r]) })
      ∧ (∀ (w : Int) (r e : Reading), r.age e = w * 1000 → Reading.olderThan w r e = false)
      ∧ (∀ (f : RateFilter) (r1 r2 r3 : Reading), f.m_pretrigger = 1000 → f.m_buffer = [] →
          r1.userTimestamp.normal → r2.userTimestamp.normal → r3.userTimestamp.normal →
          r2.userTimestamp.micros = r1.userTimestamp.micros + 500000 →
          r3.userTimestamp.micros = r1.userTimestamp.micros + 1200000 →
          bufferAll f [r1, r2, r3] = .ok { f with m_buffer := [r2, r3] }) := by
  have hpos := bufferPretrigger_of_pos
  refine ⟨?_, hpos, ?_, ?_⟩
  · intro f r h0
    simp [bufferPretrigger, h0]
  · intro w r e h
    simp [Reading.olderThan, h]
  · intro f r1 r2 r3 hw hb h1 h2 h3 h12 h13
    have a11 : Reading.olderThan 1000 r1 r1 = false := by
      simp only [Reading.olderThan, Reading.age, decide_eq_false_iff_not]; omega
    have a21 : Reading.olderThan 1000 r2 r1 = false := by
      simp only [Reading.olderThan, Reading.age, decide_eq_false_iff_not]; omega
    have a22 : Reading.olderThan 1000 r2 r2 = false := by
      simp only [Reading.olderThan, Reading.age, decide_eq_false_iff_not]; omega
    have a31 : Reading.olderThan 1000 r3 r1 = true := by
      simp only [Reading.olderThan, Reading.age, decide_eq_true_eq]; omega
    have a32 : Reading.olderThan 1000 r3 r2 = false := by
      simp only [Reading.olderThan, Reading.age, decide_eq_false_iff_not]; omega
    have e1 := hpos f r1 (by omega) h1 (by simp [hb])
    rw [hb, hw] at e1
    simp only [List.nil_append, List.dropWhile_cons, a11, Bool.false_eq_true,
      if_false] at e1
    have e2 := hpos { f with m_buffer := [r1] } r2 (by simp [hw]) h2 (by simpa using h1)
    simp only [hw, List.singleton_append, List.dropWhile_cons, a21,
      Bool.false_eq_true, if_false] at e2
    have e3 := hpos { f with m_buffer := [r1, r2] } r3 (by simp [hw]) h3
      (by intro e he; simp at he; rcases he with rfl | rfl <;> assumption)
    simp only [hw, List.cons_append, List.nil_append, List.dropWhile_cons, a31, a32,
      Bool.false_eq_true, if_true, if_false] at e3
    simp only [bufferAll, e1, e2, e3]
    rw [hw]
/-- In a buffer in time order, what the eviction leaves holds no entry older
than the window. -/
theorem dropWhile_olderThan_inTimeOrder (w : Int) (r : Reading) (l : List Reading)
    (hl : inTimeOrder l) :
    ∀ e ∈ l.dropWhile (Reading.olderThan w r), r.age e ≤ w * 1000 := by
  induction l with
  | nil => intro e he; simp at he
  | cons a rest ih =>
    unfold inTimeOrder at hl ih
    rw [List.pairwise_cons] at hl
    cases hold : Reading.olderThan w r a with
    | true =>
      simp only [List.dropWhile_cons, hold, if_true]
      exact ih hl.2
    | false =>
      simp only [List.dropWhile_cons, hold, Bool.false_eq_true, if_false]
      have ha : r.age a ≤ w * 1000 := by
        simpa [Reading.olderThan] using hold
      intro e he
      rcases List.mem_cons.mp he with rfl | hmem
      · exact ha
      · have := hl.1 e hmem
        unfold Reading.age at ha ⊢
        omega

/-- One push into a buffer in time order, with timestamps in range: the call
returns, the buffer stays a part of the old buffer followed by the reading, and
every entry is within the window of the reading. -/
theorem bufferPretrigger_inTimeOrder (f : RateFilter) (r : Reading)
    (hw : 0 < f.m_pretrigger) (hr : r.userTimestamp.normal)
    (hn : ∀ e ∈ f.m_buffer, e.userTimestamp.normal)
    (ho : inTimeOrder (f.m_buffer ++ [r])) :
    ∃ g, bufferPretrigger f r = .ok g ∧ g.m_pretrigger = f.m_pretrigger
      ∧ List.Sublist g.m_buffer (f.m_buffer ++ [r])
      ∧ ∀ e ∈ g.m_buffer, r.age e ≤ f.m_pretrigger * 1000 := by
  refine ⟨_, bufferPretrigger_of_pos f r hw hr hn, rfl, ?_, ?_⟩
  · exact List.dropWhile_sublist _
  · exact dropWhile_olderThan_inTimeOrder f.m_pretrigger r _ ho

/-- Claim C11, as amended: with a window `w > 0`, timestamps in range and
readings pushed in the order of their user timestamps onto a buffer in that
order, every call of `bufferPretrigger` returns and leaves every buffered entry
within `w` milliseconds of the reading buffered last. -/
theorem buffer_within_window_inTimeOrder (pushed : List Reading) :
    ∀ (f : RateFilter) (r : Reading), 0 < f.m_pretrigger →
      (∀ e ∈ f.m_buffer ++ pushed ++ [r], e.userTimestamp.normal) →
      inTimeOrder (f.m_buffer ++ pushed ++ [r]) →
      ∃ g, bufferAll f (pushed ++ [r]) = .ok g
        ∧ ∀ e ∈ g.m_buffer, r.age e ≤ f.m_pretrigger * 1000 := by
  induction pushed with
  | nil =>
    intro f r hw hn ho
    obtain ⟨g, hg, _, _, hin⟩ := bufferPretrigger_inTimeOrder f r hw
      (hn r (by simp)) (fun e he => hn e (by simp [he])) (by simpa using ho)
    exact ⟨g, by simp [bufferAll, hg], hin⟩
  | cons p rest ih =>
    intro f r hw hn ho
    have ho1 : inTimeOrder (f.m_buffer ++ [p]) := by
      refine List.Pairwise.sublist ?_ ho
      simp
    obtain ⟨g, hg, hgw, hsub, _⟩ := bufferPretrigger_inTimeOrder f p hw
      (hn p (by simp)) (fun e he => hn e (by simp [he])) ho1
    have hsub2 : List.Sublist (g.m_buffer ++ rest ++ [r]) (f.m_buffer ++ (p :: rest) ++ [r]) := by
      have h1 : f.m_buffer ++ (p :: rest) ++ [r] = (f.m_buffer ++ [p]) ++ (rest ++ [r]) := by
        simp
      rw [h1, List.append_assoc]
      exact List.Sublist.append hsub (List.Sublist.refl _)
    obtain ⟨g2, hg2, hin⟩ := ih g r (by omega)
      (fun e he => hn e (hsub2.subset he)) (List.Pairwise.sublist hsub2 ho)
    refine ⟨g2, by simp [bufferAll, hg, hg2], ?_⟩
    rw [← hgw]
    exact hin

/-- Claim C11, counterexample: with a window of 1000 ms, after pushes at
105.0 s, 104.0 s and 105.5 s the three readings are all buffered, and the second
is 1.5 s older than the reading buffered last. -/
theorem buffer_keeps_old_entry_behind_young_front :
    Except.map RateFilter.m_buffer (bufferAll (sampleFilter 1000 0 []) disorderedPushes)
        = .ok disorderedPushes
      ∧ (intReading "pump" "v" 3 105 500000).age (intReading "pump" "v" 2 104 0) = 1500000 := by
  decide!

/-- Claim C11, witness: pushes at 100.0 s, 100.5 s and 101.2 s with a window of
1000 ms. -/
theorem buffer_within_window_inTimeOrder_witness :
    ∃ g, bufferAll (sampleFilter 1000 0 [])
        ([intReading "pump" "v" 1 100 0, intReading "pump" "v" 2 100 500000]
          ++ [intReading "pump" "v" 3 101 200000]) = .ok g
      ∧ ∀ e ∈ g.m_buffer,
          (intReading "pump" "v" 3 101 200000).age e ≤ (sampleFilter 1000 0 []).m_pretrigger * 1000 :=
  buffer_within_window_inTimeOrder
    [intReading "pump" "v" 1 100 0, intReading "pump" "v" 2 100 500000]
    (sampleFilter 1000 0 []) (intReading "pump" "v" 3 101 200000)
    (by decide!) (by decide!) (by unfold inTimeOrder; decide!)

/-- Claim C12, witness: with a window of 1000 ms an entry of age exactly
1000 ms stays at the front of the buffer, and the pushes at 100.0 s, 100.5 s and
101.2 s leave the last two readings. -/
theorem bufferPretrigger_evicts_front_run_witness :
    bufferPretrigger
        { sampleFilter 1000 0 [] with m_buffer := [intReading "pump" "v" 1 100 0] }
        (intReading "pump" "v" 2 101 0)
      = .ok { sampleFilter 1000 0 [] with
          m_buffer := [intReading "pump" "v" 1 100 0, intReading "pump" "v" 2 101 0] }
    ∧ bufferAll (sampleFilter 1000 0 []) orderedPushes
      = .ok { sampleFilter 1000 0 [] with
          m_buffer := [intReading "pump" "v" 2 100 500000, intReading "pump" "v" 3 101 200000] } :=
  ⟨((bufferPretrigger_evicts_front_run).2.1
      { sampleFilter 1000 0 [] with m_buffer := [intReading "pump" "v" 1 100 0] }
      (intReading "pump" "v" 2 101 0) (by decide!) (by decide!) (by decide!)).trans (by decide!),
   (bufferPretrigger_evicts_front_run).2.2.2 (sampleFilter 1000 0 [])
      (intReading "pump" "v" 1 100 0) (intReading "pump" "v" 2 100 500000)
      (intReading "pump" "v" 3 101 200000)
      (by decide!) (by decide!) (by decide!) (by decide!) (by decide!) (by decide!) (by decide!)⟩

/-! ## The configured rate -/

/-- The method `handleConfig` sets `m_rate` to what the rate block computes. -/
theorem handleConfig_m_rate (f : RateFilter) (c : ConfigCategory) :
    (handleConfig f c).m_rate = rateInterval f.m_rate c.rate c.rateUnit := by
  unfold handleConfig
  cases c.exclusions <;> rfl

/-- Claim C13: `handleConfig` turns the rate into the interval of the reference
definition: rate 0 gives (0 s, 0 us) whatever the unit, and a rate above 0 gives
(0 s, 1000000 / rate us) per second, (60 / rate s, 0 us) per minute,
(3600 / rate s, 0 us) per hour and (86400 / rate s, 0 us) per day, the division
being that of the integers. -/
theorem handleConfig_rate_interval (f : RateFilter) (c : ConfigCategory) :
    (c.rate = 0 → (handleConfig f c).m_rate = ⟨0, 0⟩)
      ∧ (0 < c.rate → c.rateUnit = "per second" →
          (handleConfig f c).m_rate = ⟨0, 1000000 / c.rate⟩)
      ∧ (0 < c.rate → c.rateUnit = "per minute" →
          (handleConfig f c).m_rate = ⟨60 / c.rate, 0⟩)
      ∧ (0 < c.rate → c.rateUnit = "per hour" →
          (handleConfig f c).m_rate = ⟨3600 / c.rate, 0⟩)
      ∧ (0 < c.rate → c.rateUnit = "per day" →
          (handleConfig f c).m_rate = ⟨86400 / c.rate, 0⟩) := by
  rw [handleConfig_m_rate]
  have hdiv : ∀ a : Int, 0 ≤ a → 0 < c.rate → Int.tdiv a c.rate = a / c.rate :=
    fun a ha hr => Int.tdiv_eq_ediv ha (by omega)
  refine ⟨?_, ?_, ?_, ?_, ?_⟩
  · intro h0
    simp [rateInterval, h0]
  · intro hr hu
    have hne : c.rate ≠ 0 := by omega
    simp [rateInterval, hne, hu, hdiv 1000000 (by omega) hr]
  · intro hr hu
    have hne : c.rate ≠ 0 := by omega
    simp [rateInterval, hne, hu, hdiv 60 (by omega) hr]
  · intro hr hu
    have hne : c.rate ≠ 0 := by omega
    simp [rateInterval, hne, hu, hdiv 3600 (by omega) hr]
  · intro hr hu
    have hne : c.rate ≠ 0 := by omega
    simp [rateInterval, hne, hu, hdiv 86400 (by omega) hr]

/-- Claim C13, witness: rate 2 per minute gives (30 s, 0 us), rate 7 per minute
gives (8 s, 0 us), and rate 0 per hour gives (0 s, 0 us). -/
theorem handleConfig_rate_interval_witness :
    (handleConfig (sampleFilter 0 0 []) ⟨"v > 50", "v < 5", 0, 2, "per minute", "", .array []⟩).m_rate
        = ⟨30, 0⟩
      ∧ (handleConfig (sampleFilter 0 0 [])
          ⟨"v > 50", "v < 5", 0, 7, "per minute", "", .array []⟩).m_rate = ⟨8, 0⟩
      ∧ (handleConfig (sampleFilter 0 1 [])
          ⟨"v > 50", "v < 5", 0, 0, "per hour", "", .array []⟩).m_rate = ⟨0, 0⟩ :=
  ⟨((handleConfig_rate_interval (sampleFilter 0 0 [])
      ⟨"v > 50", "v < 5", 0, 2, "per minute", "", .array []⟩).2.2.1 (by decide) rfl).trans
      (by decide),
   ((handleConfig_rate_interval (sampleFilter 0 0 [])
      ⟨"v > 50", "v < 5", 0, 7, "per minute", "", .array []⟩).2.2.1 (by decide) rfl).trans
      (by decide),
   (handleConfig_rate_interval (sampleFilter 0 1 [])
      ⟨"v > 50", "v < 5", 0, 0, "per hour", "", .array []⟩).1 rfl⟩

/-! ## The handlers on batches without a transition -/

/-- The Triggered loop forwards a whole batch on which the untrigger expression
stays false. -/
theorem triggeredLoop_quiet_all (w : World)
    (next : RateFilter → List Reading → List Reading → Outcome) (f : RateFilter)
    (e : Evaluator) (readings out : List Reading)
    (he : f.m_untriggerExpression = some e) (hq : e.firesOnNone w readings = true) :
    triggeredLoop w next f readings out
      = .ok ({ f with m_untriggerExpression := some (e.evaluateAll w readings) }, [],
          out ++ readings) := by
  have h := triggeredLoop_quiet_run w next readings f e [] out he hq
  rw [List.append_nil] at h
  rw [h]
  simp [triggeredLoop]

/-- Claim C15: when the untrigger expression is false on every reading of the
batch, `triggeredIngest` returns with the batch empty and the output extended by
exactly the readings of the batch in order; of the filter only the slots of the
untrigger evaluator change, so the state is still Triggered and the pre-trigger
buffer and the averaging accumulator are as before. -/
theorem triggeredIngest_forwards_quiet_batch (w : World) (fuel : Nat) (f : RateFilter)
    (e : Evaluator) (readings out : List Reading)
    (hs : f.m_state = true)
    (he : f.m_untriggerExpression = some e)
    (hq : e.firesOnNone w readings = true) :
    ∃ g, triggeredIngest w (fuel + 1) f readings out = .ok (g, [], out ++ readings)
      ∧ g = { f with m_untriggerExpression := some (e.evaluateAll w readings) }
      ∧ g.m_state = true ∧ g.m_buffer = f.m_buffer
      ∧ g.m_averageMap = f.m_averageMap ∧ g.m_averageCount = f.m_averageCount
      ∧ g.m_lastSent = f.m_lastSent := by
  refine ⟨_, ?_, rfl, hs, rfl, rfl, rfl, rfl⟩
  rw [triggeredIngest_succ]
  exact triggeredLoop_quiet_all w _ f e readings out he hq

/-- Claim C15, witness: a Triggered filter with the untrigger `v < 5` and the
batch `v = 70`, `v = 100`. -/
theorem triggeredIngest_forwards_quiet_batch_witness :
    ∃ g, triggeredIngest sampleWorld 1 triggeredSample [midReading, highReading] []
        = .ok (g, [], [] ++ [midReading, highReading])
      ∧ g = { triggeredSample with
          m_untriggerExpression := some
            ((Evaluator.construct [] lowReading "v < 5").evaluateAll sampleWorld
              [midReading, highReading]) }
      ∧ g.m_state = true ∧ g.m_buffer = triggeredSample.m_buffer
      ∧ g.m_averageMap = triggeredSample.m_averageMap
      ∧ g.m_averageCount = triggeredSample.m_averageCount
      ∧ g.m_lastSent = triggeredSample.m_lastSent :=
  triggeredIngest_forwards_quiet_batch sampleWorld 0 triggeredSample
    (Evaluator.construct [] lowReading "v < 5") [midReading, highReading] []
    (by decide!) (by decide!) (by decide!)
/-- Without a match value `sendPretrigger` sends the whole buffer, oldest
first. -/
theorem sendLoop_none (pretriggerFilter : String) (buffer : List Reading) :
    ∀ out : List Reading, sendLoop pretriggerFilter none buffer out = out ++ buffer := by
  induction buffer with
  | nil => intro out; simp [sendLoop]
  | cons r rest ih => intro out; simp [sendLoop, ih]

/-- What the first two blocks of `ingest` leave alone, and the flag they
clear. -/
theorem buildEvaluators_frame (w : World) (f g : RateFilter) (readings : List Reading)
    (hb : buildEvaluators w (discardPending f) readings = .ok g) :
    g.m_state = f.m_state ∧ g.m_buffer = f.m_buffer ∧ g.m_exclusions = f.m_exclusions
      ∧ g.m_pretriggerFilter = f.m_pretriggerFilter ∧ g.m_rate = f.m_rate
      ∧ g.m_lastSent = f.m_lastSent ∧ g.m_pretrigger = f.m_pretrigger
      ∧ g.m_averageCount = f.m_averageCount ∧ g.m_averageMap = f.m_averageMap
      ∧ g.m_trigger = f.m_trigger ∧ g.m_untrigger = f.m_untrigger
      ∧ g.m_pendingReconfigure = false := by
  have hd : ∀ d : RateFilter, buildEvaluators w d readings = .ok g →
      g.m_state = d.m_state ∧ g.m_buffer = d.m_buffer ∧ g.m_exclusions = d.m_exclusions
      ∧ g.m_pretriggerFilter = d.m_pretriggerFilter ∧ g.m_rate = d.m_rate
      ∧ g.m_lastSent = d.m_lastSent ∧ g.m_pretrigger = d.m_pretrigger
      ∧ g.m_averageCount = d.m_averageCount ∧ g.m_averageMap = d.m_averageMap
      ∧ g.m_trigger = d.m_trigger ∧ g.m_untrigger = d.m_untrigger
      ∧ g.m_pendingReconfigure = d.m_pendingReconfigure := by
    intro d hbd
    unfold buildEvaluators at hbd
    cases ht : d.m_triggerExpression with
    | some e =>
      simp only [ht, Except.ok.injEq] at hbd
      subst hbd
      exact ⟨rfl, rfl, rfl, rfl, rfl, rfl, rfl, rfl, rfl, rfl, rfl, rfl⟩
    | none =>
      cases readings with
      | nil => simp [ht] at hbd
      | cons r rest =>
        simp only [ht, Except.ok.injEq] at hbd
        subst hbd
        exact ⟨rfl, rfl, rfl, rfl, rfl, rfl, rfl, rfl, rfl, rfl, rfl, rfl⟩
  have h := hd (discardPending f) hb
  cases hp : f.m_pendingReconfigure with
  | true => simpa [discardPending, hp] using h
  | false =>
    have hdf : discardPending f = f := by simp [discardPending, hp]
    rw [hdf] at h
    obtain ⟨h1, h2, h3, h4, h5, h6, h7, h8, h9, h10, h11, h12⟩ := h
    exact ⟨h1, h2, h3, h4, h5, h6, h7, h8, h9, h10, h11, h12.trans hp⟩

/-- Claim C14: in the Untriggered state without a pre-trigger filter, when the
first reading `r` of the batch is not excluded and fires the trigger expression
and the untrigger expression fires on no reading of the batch, `ingest` returns
with the output extended by the pre-trigger buffer, oldest entry first, then
`r`, then the rest of the batch; the state is Triggered and the buffer is
empty. The evaluators `te` and `ue` are the ones that `ingest` keeps or builds
from `r`. -/
theorem ingest_trigger_on_first_reading (w : World) (fuel : Nat) (f g : RateFilter)
    (te ue : Evaluator) (r : Reading) (rest out : List Reading)
    (hstate : f.m_state = false)
    (hfilter : f.m_pretriggerFilter = "")
    (hbuild : buildEvaluators w (discardPending f) (r :: rest) = .ok g)
    (hte : g.m_triggerExpression = some te)
    (hue : g.m_untriggerExpression = some ue)
    (hex : f.isExcluded r.assetName = false)
    (hfire : (te.evaluate w r).2 = true)
    (hquiet : ue.firesOnNone w (r :: rest) = true) :
    ∃ g2, ingest w (fuel + 2) f (r :: rest) out
        = .ok (g2, [], out ++ f.m_buffer ++ [r] ++ rest)
      ∧ g2.m_state = true ∧ g2.m_buffer = [] := by
  obtain ⟨h1, h2, h3, h4, _⟩ := buildEvaluators_frame w f g (r :: rest) hbuild
  have hgs : g.m_state = false := h1.trans hstate
  have hgx : g.isExcluded r.assetName = false := by
    simpa [isExcluded, h3] using hex
  have hgf : g.m_pretriggerFilter = "" := h4.trans hfilter
  unfold ingest
  rw [hbuild]
  simp only [hgs, Bool.false_eq_true, if_false]
  rw [untriggeredIngest_succ]
  simp only [untriggeredLoop, hgx, Bool.false_eq_true, if_false, hte, hfire, if_true]
  rw [triggeredIngest_succ]
  simp only [sendPretrigger, clearAverage, hgf, ne_eq, not_true_eq_false, if_false,
    sendLoop_none]
  rw [triggeredLoop_quiet_all w _ _ ue (r :: rest) _ ?he hquiet]
  case he => exact hue
  have hout : out ++ f.m_buffer ++ [r] ++ rest = out ++ g.m_buffer ++ (r :: rest) := by
    simp [h2]
  rw [hout]
  exact ⟨_, rfl, rfl, rfl⟩

/-- Claim C14, witness: a buffer holding `v = 1`, and the batch `v = 100`,
`v = 70` with the trigger `v > 50` and the untrigger `v < 5`. -/
theorem ingest_trigger_on_first_reading_witness :
    ∃ g2, ingest sampleWorld 2 { sampleFilter 1000 0 [] with m_buffer := [lowReading] }
          (highReading :: [midReading]) []
        = .ok (g2, [], [] ++ [lowReading] ++ [highReading] ++ [midReading])
      ∧ g2.m_state = true ∧ g2.m_buffer = [] :=
  ingest_trigger_on_first_reading sampleWorld 0
    { sampleFilter 1000 0 [] with m_buffer := [lowReading] }
    (withEvaluators sampleWorld { sampleFilter 1000 0 [] with m_buffer := [lowReading] }
      highReading)
    (Evaluator.construct [] highReading "v > 50") (Evaluator.construct [] highReading "v < 5")
    highReading [midReading] []
    (by decide!) (by decide!) (by decide!) (by decide!) (by decide!) (by decide!) (by decide!)
    (by decide!)

/-- The age of a reading with respect to itself is never greater than a window
that is not negative: the eviction loop stops on the reading just buffered. -/
theorem timercmpGt_self (w : Int) (hw : 0 ≤ w) (t : Timeval) :
    timercmpGt (timersub t t) ⟨Int.tdiv w 1000, Int.tmod w 1000 * 1000⟩ = false := by
  have hq : Int.tdiv w 1000 = w / 1000 := Int.tdiv_eq_ediv hw (by omega)
  have hm : Int.tmod w 1000 = w % 1000 := Int.tmod_eq_emod hw (by omega)
  rw [hq, hm]
  by_cases hs : (0 : Int) = w / 1000
  · simp only [timercmpGt, timersub, Int.sub_self, Int.lt_irrefl, if_false, hs.symm, if_true,
      decide_eq_false_iff_not]
    omega
  · simp only [timercmpGt, timersub, Int.sub_self, Int.lt_irrefl, if_false, hs,
      decide_eq_false_iff_not]
    omega

/-- With a window that is not negative the eviction loop returns a buffer. -/
theorem evictLoop_isSome (w : Int) (hw : 0 ≤ w) (r : Reading) (l : List Reading) :
    ∃ b, evictLoop r.userTimestamp ⟨Int.tdiv w 1000, Int.tmod w 1000 * 1000⟩ (l ++ [r])
      = some b := by
  induction l with
  | nil => exact ⟨[r], by simp [evictLoop, timercmpGt_self w hw]⟩
  | cons e rest ih =>
    obtain ⟨b, hb⟩ := ih
    simp only [List.cons_append, evictLoop]
    split
    · exact ⟨b, hb⟩
    · exact ⟨_, rfl⟩

/-- With a window that is not negative `bufferPretrigger` returns, and changes
the buffer only. -/
theorem bufferPretrigger_of_nonneg (f : RateFilter) (r : Reading) (hw : 0 ≤ f.m_pretrigger) :
    ∃ b, bufferPretrigger f r = .ok { f with m_buffer := b } := by
  by_cases h0 : f.m_pretrigger = 0
  · refine ⟨f.m_buffer, ?_⟩
    unfold bufferPretrigger
    rw [if_pos h0]
  · obtain ⟨b, hb⟩ := evictLoop_isSome f.m_pretrigger hw r f.m_buffer
    exact ⟨b, by simp only [bufferPretrigger, h0, if_false, hb]⟩

/-- With rate 0 and a window that is not negative, the Untriggered loop on a
batch without an excluded reading on which the trigger expression stays false
returns with the batch empty and the output as it was; the filter changes in
its buffer and in the slots of the trigger evaluator only. -/
theorem untriggeredLoop_rate_zero (w : World)
    (next : RateFilter → List Reading → List Reading → Outcome) (readings : List Reading) :
    ∀ (f : RateFilter) (te : Evaluator) (out : List Reading),
      f.m_rate = ⟨0, 0⟩ → 0 ≤ f.m_pretrigger →
      f.m_triggerExpression = some te → te.firesOnNone w readings = true →
      (∀ r ∈ readings, f.isExcluded r.assetName = false) →
      ∃ b, untriggeredLoop w next f readings out
        = .ok ({ f with m_buffer := b,
                        m_triggerExpression := some (te.evaluateAll w readings) }, [], out) := by
  induction readings with
  | nil =>
    intro f te out _ _ hte _ _
    exact ⟨f.m_buffer, by simp [untriggeredLoop, Evaluator.evaluateAll, ← hte]⟩
  | cons r rest ih =>
    intro f te out hrate hw hte hq hex
    simp only [Evaluator.firesOnNone, Bool.and_eq_true, Bool.not_eq_true'] at hq
    have hx : f.isExcluded r.assetName = false := hex r (List.mem_cons_self r rest)
    obtain ⟨b, hb⟩ := bufferPretrigger_of_nonneg
      { f with m_triggerExpression := some (te.evaluate w r).1 } r hw
    have hrz : ¬ (f.m_rate.tv_sec ≠ 0 ∨ f.m_rate.tv_usec ≠ 0) := by simp [hrate]
    obtain ⟨b2, hb2⟩ := ih
      { f with m_buffer := b, m_triggerExpression := some (te.evaluate w r).1 }
      (te.evaluate w r).1 out hrate hw rfl hq.2
      (fun x hx2 => hex x (List.mem_cons_of_mem r hx2))
    refine ⟨b2, ?_⟩
    simp only [untriggeredLoop, hx, Bool.false_eq_true, if_false, hte, hq.1, hb]
    rw [if_neg hrz]
    simpa [Evaluator.evaluateAll] using hb2

/-- With rate 0 and a window that is not negative, a batch handled in the
Untriggered state without an excluded reading and without a reading that fires
the trigger leaves the output, the sums, the fold count and the last-sent
timestamp as they were, the state Untriggered and the batch empty. -/
theorem untriggeredIngest_rate_zero_drops (w : World) (fuel : Nat) (f : RateFilter)
    (te : Evaluator) (readings out : List Reading)
    (hstate : f.m_state = false) (hrate : f.m_rate = ⟨0, 0⟩) (hw : 0 ≤ f.m_pretrigger)
    (hte : f.m_triggerExpression = some te) (hq : te.firesOnNone w readings = true)
    (hex : ∀ r ∈ readings, f.isExcluded r.assetName = false) :
    ∃ g, untriggeredIngest w (fuel + 1) f readings out = .ok (g, [], out)
      ∧ g.m_averageMap = f.m_averageMap ∧ g.m_averageCount = f.m_averageCount
      ∧ g.m_lastSent = f.m_lastSent ∧ g.m_state = false := by
  obtain ⟨b, hb⟩ := untriggeredLoop_rate_zero w (triggeredIngest w fuel) readings f te out
    hrate hw hte hq hex
  rw [untriggeredIngest_succ, hb]
  exact ⟨_, rfl, rfl, rfl, rfl, hstate⟩

/-- Claim C16, refuted on the code for a negative window: with rate 0 and a
pre-trigger window of -1 ms, `bufferPretrigger` removes the copy it has just
buffered and takes the front of the empty buffer, so the Untriggered handler
returns no result for the batch of one reading `v = 1`, which is not excluded
and does not fire the trigger `v > 50`. -/
theorem negative_window_empties_buffer :
    negativeWindowFilter.m_rate = ⟨0, 0⟩
      ∧ negativeWindowFilter.m_state = false
      ∧ negativeWindowFilter.isExcluded lowReading.assetName = false
      ∧ untriggeredIngest sampleWorld 1 negativeWindowFilter [lowReading] []
        = .error .undefinedBehaviour := by
  decide!

/-! ## What the handlers leave alone -/

/-- Every filter is in the frame of itself. -/
theorem Frame_refl (f : RateFilter) : Frame f f :=
  ⟨rfl, rfl, rfl, rfl, rfl, rfl, rfl, rfl, rfl⟩

/-- Frames compose. -/
theorem Frame_trans {f g h : RateFilter} (h1 : Frame f g) (h2 : Frame g h) : Frame f h := by
  obtain ⟨a1, a2, a3, a4, a5, a6, a7, a8, a9⟩ := h1
  obtain ⟨b1, b2, b3, b4, b5, b6, b7, b8, b9⟩ := h2
  exact ⟨b1.trans a1, b2.trans a2, b3.trans a3, b4.trans a4, b5.trans a5, b6.trans a6,
    b7.trans a7, b8.trans a8, b9.trans a9⟩

/-- The method `bufferPretrigger` stays in the frame. -/
theorem Frame_bufferPretrigger (f g : RateFilter) (r : Reading)
    (hb : bufferPretrigger f r = .ok g) : Frame f g := by
  simp only [bufferPretrigger] at hb
  split at hb
  · simp only [Except.ok.injEq] at hb
    exact hb ▸ Frame_refl f
  · split at hb
    · simp at hb
    · simp only [Except.ok.injEq] at hb
      subst hb
      exact ⟨rfl, rfl, rfl, rfl, rfl, rfl, rfl, rfl, rfl⟩

/-- The method `addAverageReading` stays in the frame. -/
theorem Frame_addAverageReading (f : RateFilter) (r : Reading) (out : List Reading)
    (a : RateFilter × List Reading) (ha : addAverageReading f r out = .ok a) :
    Frame f a.1 := by
  simp only [addAverageReading] at ha
  cases hm : foldDatapoints f.m_averageMap r.readingData with
  | none => simp [hm] at ha
  | some m =>
    simp only [hm] at ha
    split at ha
    · simp only [averageReading] at ha
      cases hd : averageDatapoints (f.m_averageCount + 1) m with
      | none => simp [hd] at ha
      | some dps =>
        simp only [hd, Option.map_some', Except.ok.injEq] at ha
        subst ha
        exact ⟨rfl, rfl, rfl, rfl, rfl, rfl, rfl, rfl, rfl⟩
    · simp only [Except.ok.injEq] at ha
      subst ha
      exact ⟨rfl, rfl, rfl, rfl, rfl, rfl, rfl, rfl, rfl⟩

/-- The Triggered loop stays in the frame when its continuation does. -/
theorem Frame_triggeredLoop (w : World)
    (next : RateFilter → List Reading → List Reading → Outcome)
    (hnext : ∀ f rs out x, next f rs out = .ok x → Frame f x.1)
    (readings : List Reading) :
    ∀ (f : RateFilter) (out : List Reading) (x : RateFilter × List Reading × List Reading),
      triggeredLoop w next f readings out = .ok x → Frame f x.1 := by
  induction readings with
  | nil =>
    intro f out x hx
    simp only [triggeredLoop, Except.ok.injEq] at hx
    exact hx ▸ Frame_refl f
  | cons r rest ih =>
    intro f out x hx
    cases he : f.m_untriggerExpression with
    | none => simp [triggeredLoop, he] at hx
    | some e =>
      cases hr : (e.evaluate w r).2 with
      | true =>
        simp only [triggeredLoop, he, hr, if_true] at hx
        refine Frame_trans ?_ (hnext _ _ _ x hx)
        exact ⟨rfl, rfl, rfl, rfl, rfl, rfl, rfl, rfl, by rw [he]; rfl⟩
      | false =>
        simp only [triggeredLoop, he, hr, Bool.false_eq_true, if_false] at hx
        refine Frame_trans ?_ (ih _ _ x hx)
        exact ⟨rfl, rfl, rfl, rfl, rfl, rfl, rfl, rfl, by rw [he]; rfl⟩

/-- The Untriggered loop stays in the frame when its continuation does. -/
theorem Frame_untriggeredLoop (w : World)
    (next : RateFilter → List Reading → List Reading → Outcome)
    (hnext : ∀ f rs out x, next f rs out = .ok x → Frame f x.1)
    (readings : List Reading) :
    ∀ (f : RateFilter) (out : List Reading) (x : RateFilter × List Reading × List Reading),
      untriggeredLoop w next f readings out = .ok x → Frame f x.1 := by
  induction readings with
  | nil =>
    intro f out x hx
    simp only [untriggeredLoop, Except.ok.injEq] at hx
    exact hx ▸ Frame_refl f
  | cons r rest ih =>
    intro f out x hx
    cases hex : f.isExcluded r.assetName with
    | true =>
      simp only [untriggeredLoop, hex, if_true] at hx
      exact ih _ _ x hx
    | false =>
      cases he : f.m_triggerExpression with
      | none => simp [untriggeredLoop, hex, he] at hx
      | some e =>
        have h1 : Frame f { f with m_triggerExpression := some (e.evaluate w r).1 } :=
          ⟨rfl, rfl, rfl, rfl, rfl, rfl, rfl, by rw [he]; rfl, rfl⟩
        cases hr : (e.evaluate w r).2 with
        | true =>
          simp only [untriggeredLoop, hex, he, hr, Bool.false_eq_true, if_false, if_true] at hx
          refine Frame_trans ?_ (hnext _ _ _ x hx)
          exact ⟨rfl, rfl, rfl, rfl, rfl, rfl, rfl, by rw [he]; rfl, rfl⟩
        | false =>
          simp only [untriggeredLoop, hex, he, hr, Bool.false_eq_true, if_false] at hx
          cases hb : bufferPretrigger
              { f with m_triggerExpression := some (e.evaluate w r).1 } r with
          | error y => simp [hb] at hx
          | ok f2 =>
            have h2 := Frame_trans h1 (Frame_bufferPretrigger _ f2 r hb)
            simp only [hb] at hx
            split at hx
            · cases ha : addAverageReading f2 r out with
              | error y => simp [ha] at hx
              | ok a =>
                simp only [ha] at hx
                exact Frame_trans (Frame_trans h2 (Frame_addAverageReading f2 r out a ha))
                  (ih _ _ x hx)
            · exact Frame_trans h2 (ih _ _ x hx)

/-- The handlers stay in the frame. -/
theorem Frame_handlers (w : World) (fuel : Nat) :
    (∀ f rs out x, triggeredIngest w fuel f rs out = .ok x → Frame f x.1)
      ∧ (∀ f rs out x, untriggeredIngest w fuel f rs out = .ok x → Frame f x.1) := by
  induction fuel with
  | zero =>
    constructor <;> intro f rs out x hx
    · simp [triggeredIngest] at hx
    · simp [untriggeredIngest] at hx
  | succ n ih =>
    constructor <;> intro f rs out x hx
    · rw [triggeredIngest] at hx
      exact Frame_triggeredLoop w _ ih.2 rs f out x hx
    · rw [untriggeredIngest] at hx
      exact Frame_untriggeredLoop w _ ih.1 rs f out x hx

/-- The call of the handler of the current state stays in the frame. -/
theorem Frame_dispatch (w : World) (fuel : Nat) (f : RateFilter) (readings out : List Reading)
    (x : RateFilter × List Reading × List Reading)
    (hx : dispatch w fuel f readings out = .ok x) : Frame f x.1 := by
  unfold dispatch at hx
  split at hx
  · exact (Frame_handlers w fuel).1 f readings out x hx
  · exact (Frame_handlers w fuel).2 f readings out x hx

/-! ## Reconfiguration and the rebuilding of the evaluators -/

/-- With the pending flag set, `ingest` on a batch that starts with `r` is the
handler of the current state called on the filter with both evaluators
rebuilt from `r`. -/
theorem ingest_of_pending (w : World) (fuel : Nat) (f : RateFilter) (r : Reading)
    (rest out : List Reading) (hp : f.m_pendingReconfigure = true) :
    ingest w fuel f (r :: rest) out = dispatch w fuel (rebuilt w f r) (r :: rest) out := by
  unfold ingest dispatch
  have hb : buildEvaluators w (discardPending f) (r :: rest) = .ok (rebuilt w f r) := by
    simp only [buildEvaluators, discardPending, hp, if_true, rebuilt, untriggerText]
    by_cases hu : f.m_untrigger = "" <;> simp [hu]
  rw [hb]

/-- With the pending flag clear and a trigger evaluator present, `ingest` is the
handler of the current state called on the filter as it is. -/
theorem ingest_of_built (w : World) (fuel : Nat) (f : RateFilter) (e : Evaluator)
    (readings out : List Reading) (hp : f.m_pendingReconfigure = false)
    (he : f.m_triggerExpression = some e) :
    ingest w fuel f readings out = dispatch w fuel f readings out := by
  unfold ingest dispatch
  have hb : buildEvaluators w (discardPending f) readings = .ok f := by
    simp [buildEvaluators, discardPending, hp, he]
  rw [hb]

/-- Claim C18: `reconfigure` leaves both evaluators as they are and sets the
pending flag. The next `ingest`, on a batch that starts with `r`, runs the
handler of the current state on the filter whose evaluators are both rebuilt
from `r` and the newly configured texts, with the flag cleared; when it returns
the flag is clear and the evaluators have the names and texts of the rebuilt
ones. An `ingest` that finds the flag clear and a trigger evaluator present
runs the handler on the filter as it is. -/
theorem reconfigure_defers_rebuild (w : World) (fuel : Nat) (f : RateFilter)
    (c : ConfigCategory) (r : Reading) (rest out : List Reading) :
    ((reconfigure f c).m_triggerExpression = f.m_triggerExpression
        ∧ (reconfigure f c).m_untriggerExpression = f.m_untriggerExpression
        ∧ (reconfigure f c).m_pendingReconfigure = true)
      ∧ (ingest w fuel (reconfigure f c) (r :: rest) out
          = dispatch w fuel (rebuilt w (reconfigure f c) r) (r :: rest) out
        ∧ (rebuilt w (reconfigure f c) r).m_triggerExpression
            = some (Evaluator.construct w.uninitTrigger r c.trigger)
        ∧ (rebuilt w (reconfigure f c) r).m_untriggerExpression
            = some (Evaluator.construct w.uninitUntrigger r (untriggerText c.untrigger))
        ∧ (rebuilt w (reconfigure f c) r).m_pendingReconfigure = false)
      ∧ (∀ x, ingest w fuel (reconfigure f c) (r :: rest) out = .ok x →
          x.1.m_pendingReconfigure = false
          ∧ x.1.m_triggerExpression.map Evaluator.shape
              = some (Evaluator.construct w.uninitTrigger r c.trigger).shape
          ∧ x.1.m_untriggerExpression.map Evaluator.shape
              = some (Evaluator.construct w.uninitUntrigger r
                  (untriggerText c.untrigger)).shape)
      ∧ (∀ (g : RateFilter) (e : Evaluator) (readings : List Reading),
          g.m_pendingReconfigure = false → g.m_triggerExpression = some e →
          ingest w fuel g readings out = dispatch w fuel g readings out) := by
  have hrec : (reconfigure f c).m_triggerExpression = f.m_triggerExpression
      ∧ (reconfigure f c).m_untriggerExpression = f.m_untriggerExpression
      ∧ (reconfigure f c).m_pendingReconfigure = true
      ∧ (reconfigure f c).m_trigger = c.trigger
      ∧ (reconfigure f c).m_untrigger = c.untrigger := by
    unfold reconfigure handleConfig
    cases c.exclusions <;> exact ⟨rfl, rfl, rfl, rfl, rfl⟩
  obtain ⟨h1, h2, h3, h4, h5⟩ := hrec
  have hing := ingest_of_pending w fuel (reconfigure f c) r rest out h3
  have ht : (rebuilt w (reconfigure f c) r).m_triggerExpression
      = some (Evaluator.construct w.uninitTrigger r c.trigger) := by
    simp only [rebuilt, h4]
  have hu : (rebuilt w (reconfigure f c) r).m_untriggerExpression
      = some (Evaluator.construct w.uninitUntrigger r (untriggerText c.untrigger)) := by
    simp only [rebuilt, h5]
  refine ⟨⟨h1, h2, h3⟩, ⟨hing, ht, hu, rfl⟩, ?_, ?_⟩
  · intro x hx
    rw [hing] at hx
    obtain ⟨_, _, _, _, a5, _, _, a8, a9⟩ := Frame_dispatch w fuel _ _ _ x hx
    refine ⟨a5, ?_, ?_⟩
    · rw [a8, ht]; rfl
    · rw [a9, hu]; rfl
  · intro g e readings hp he
    exact ingest_of_built w fuel g e readings out hp he

/-- Claim C18, witness: a Triggered filter with evaluators for `v > 50` and
`v < 5` and the flag clear keeps them in `ingest`; reconfigured with the trigger
`v > 10`, its next `ingest` runs on evaluators rebuilt from the reading
`v = 1`, and returns with the flag clear. -/
theorem reconfigure_defers_rebuild_witness :
    ingest sampleWorld 2 triggeredSample [midReading] []
        = dispatch sampleWorld 2 triggeredSample [midReading] []
      ∧ ingest sampleWorld 2 (reconfigure triggeredSample secondConfig) (lowReading :: []) []
        = dispatch sampleWorld 2
            (rebuilt sampleWorld (reconfigure triggeredSample secondConfig) lowReading)
            (lowReading :: []) []
      ∧ Option.map RateFilter.m_pendingReconfigure
          (ingest sampleWorld 2 (reconfigure triggeredSample secondConfig) (lowReading :: [])
            []).filter = some false :=
  ⟨(reconfigure_defers_rebuild sampleWorld 2 triggeredSample secondConfig lowReading [] []).2.2.2
      triggeredSample (Evaluator.construct [] lowReading "v > 50") [midReading]
      (by decide!) (by decide!),
   (reconfigure_defers_rebuild sampleWorld 2 triggeredSample secondConfig lowReading
      [] []).2.1.1,
   by decide!⟩

/-! ## The slots of the evaluator after `evaluate` -/

/-- A write at or after the index `m` leaves the first `m` entries alone. -/
theorem take_set_of_le (a : String) {n m : Nat} (l : List String) (h : m ≤ n) :
    (l.set n a).take m = l.take m :=
  List.ext_getElem? fun i => by
    rw [List.getElem?_take, List.getElem?_take]
    split
    · rw [List.getElem?_set_ne (by omega)]
    · rfl

/-- The two writes of the constructor at `k` and `k + 1`, in range, extend the
first `k` names by the two new names. -/
theorem take_set_pair (names : List String) (k : Nat) (a b : String)
    (hk : k + 1 < names.length) :
    ((names.set k a).set (k + 1) b).take (k + 2) = names.take k ++ [a, b] := by
  have h1 : ((names.set k a).set (k + 1) b)[k + 1]? = some b := by
    rw [List.getElem?_set_self (by simpa using hk)]
  have h0 : ((names.set k a).set (k + 1) b)[k]? = some a := by
    rw [List.getElem?_set_ne (by omega), List.getElem?_set_self (by omega)]
  have ht : ((names.set k a).set (k + 1) b).take k = names.take k := by
    rw [take_set_of_le b _ (by omega), take_set_of_le a _ (by omega)]
  rw [List.take_succ, List.take_succ, h1, h0, ht]
  simp

/-- The first loop of the constructor, entered with `2 * j` names bound and
`j < 10`, on an array of 20 names: it binds the names of the next numeric
data-points up to ten in all, two names each, and every write is in range. -/
theorem bindNames_spec (assetName : String) (dps : List Datapoint) :
    ∀ (names : List String) (j : Nat), names.length = 20 → j < 10 →
      (Evaluator.bindNames assetName dps names (2 * j)).2
          = 2 * min (j + (dps.filter (fun dp => dp.data.numeric?.isSome)).length) 10
        ∧ (Evaluator.bindNames assetName dps names (2 * j)).1.length = 20
        ∧ (Evaluator.bindNames assetName dps names (2 * j)).1.take
            (Evaluator.bindNames assetName dps names (2 * j)).2
          = names.take (2 * j)
            ++ ((dps.filter (fun dp => dp.data.numeric?.isSome)).take (10 - j)).flatMap
                (namePair assetName) := by
  induction dps with
  | nil =>
    intro names j _ hj
    simp only [Evaluator.bindNames, List.filter_nil, List.length_nil, Nat.add_zero]
    refine ⟨by omega, by assumption, by simp⟩
  | cons dp rest ih =>
    intro names j hlen hj
    have hnum : ∀ (names2 : List String),
        names2 = (names.set (2 * j) dp.name).set (2 * j + 1) (assetName ++ "." ++ dp.name) →
        dp.data.numeric?.isSome = true →
        (if (names2, 2 * j + 2).2 = MAX_EXPRESSION_VARIABLES then (names2, 2 * j + 2)
          else Evaluator.bindNames assetName rest names2 (2 * j + 2)).2
            = 2 * min (j + ((dp :: rest).filter
                (fun dp => dp.data.numeric?.isSome)).length) 10
          ∧ (if (names2, 2 * j + 2).2 = MAX_EXPRESSION_VARIABLES then (names2, 2 * j + 2)
              else Evaluator.bindNames assetName rest names2 (2 * j + 2)).1.length = 20
          ∧ (if (names2, 2 * j + 2).2 = MAX_EXPRESSION_VARIABLES then (names2, 2 * j + 2)
              else Evaluator.bindNames assetName rest names2 (2 * j + 2)).1.take
              (if (names2, 2 * j + 2).2 = MAX_EXPRESSION_VARIABLES then (names2, 2 * j + 2)
                else Evaluator.bindNames assetName rest names2 (2 * j + 2)).2
            = names.take (2 * j)
              ++ (((dp :: rest).filter (fun dp => dp.data.numeric?.isSome)).take
                  (10 - j)).flatMap (namePair assetName) := by
      intro names2 hn2 hsome
      have hlen2 : names2.length = 20 := by rw [hn2]; simpa using hlen
      have htake : names2.take (2 * j + 2)
          = names.take (2 * j) ++ [dp.name, assetName ++ "." ++ dp.name] := by
        rw [hn2]
        exact take_set_pair names (2 * j) _ _ (by omega)
      have hfilter : (dp :: rest).filter (fun dp => dp.data.numeric?.isSome)
          = dp :: rest.filter (fun dp => dp.data.numeric?.isSome) :=
        List.filter_cons_of_pos hsome
      have hsplit : 10 - j = (10 - (j + 1)) + 1 := by omega
      rw [hfilter, hsplit, List.take_succ_cons, List.flatMap_cons]
      by_cases hfull : 2 * j + 2 = MAX_EXPRESSION_VARIABLES
      · have hj9 : j = 9 := by unfold MAX_EXPRESSION_VARIABLES at hfull; omega
        rw [if_pos hfull]
        subst hj9
        refine ⟨by simp only [List.length_cons]; omega, hlen2, ?_⟩
        simp only [htake]
        simp [namePair]
      · have hj8 : j + 1 < 10 := by unfold MAX_EXPRESSION_VARIABLES at hfull; omega
        rw [if_neg hfull]
        have h2 : 2 * j + 2 = 2 * (j + 1) := by omega
        obtain ⟨i1, i2, i3⟩ := ih names2 (j + 1) hlen2 hj8
        rw [h2]
        refine ⟨?_, i2, ?_⟩
        · rw [i1]; simp only [List.length_cons]; omega
        · rw [i3, ← h2, htake]
          simp [namePair]
    cases hd : dp.data with
    | T_STRING s =>
      have hfilter : (dp :: rest).filter (fun dp => dp.data.numeric?.isSome)
          = rest.filter (fun dp => dp.data.numeric?.isSome) :=
        List.filter_cons_of_neg (by simp [hd, DatapointValue.numeric?])
      have hk : ¬ (2 * j = MAX_EXPRESSION_VARIABLES) := by
        unfold MAX_EXPRESSION_VARIABLES; omega
      simp only [Evaluator.bindNames, hd, hk, if_false, hfilter]
      exact ih names j hlen hj
    | T_INTEGER n =>
      simp only [Evaluator.bindNames, hd]
      exact hnum _ rfl (by simp [hd, DatapointValue.numeric?])
    | T_FLOAT d =>
      simp only [Evaluator.bindNames, hd]
      exact hnum _ rfl (by simp [hd, DatapointValue.numeric?])

/-- Claim C20: for a sample reading with `n` integer or float data-points the
constructor of the evaluator binds `2 * min n 10` variables, at most 20, in
arrays of 20 names and 20 values; the names bound are, for the first
`min n 10` numeric data-points in data-point order, the bare name immediately
followed by the asset-qualified name. No name is lost to a write out of range,
and the constructor returns an evaluator also when the capacity is reached. -/
theorem construct_binding_table (uninit : List Rat) (r : Reading) (expression : String) :
    (Evaluator.construct uninit r expression).m_varCount
        = 2 * min r.numericDatapoints.length 10
      ∧ (Evaluator.construct uninit r expression).m_varCount ≤ MAX_EXPRESSION_VARIABLES
      ∧ (Evaluator.construct uninit r expression).m_variableNames.length
          = MAX_EXPRESSION_VARIABLES
      ∧ (Evaluator.construct uninit r expression).m_variables.length
          = MAX_EXPRESSION_VARIABLES
      ∧ (Evaluator.construct uninit r expression).m_variableNames.take
          (Evaluator.construct uninit r expression).m_varCount = r.bindingTable := by
  obtain ⟨h1, h2, h3⟩ := bindNames_spec r.assetName r.readingData
    (List.replicate MAX_EXPRESSION_VARIABLES "") 0 (by simp [MAX_EXPRESSION_VARIABLES])
    (by omega)
  simp only [Nat.mul_zero, Nat.zero_add, List.take_zero, List.nil_append, Nat.sub_zero] at h1 h2 h3
  refine ⟨h1, ?_, h2, ?_, h3⟩
  · show (Evaluator.bindNames r.assetName r.readingData
      (List.replicate MAX_EXPRESSION_VARIABLES "") 0).2 ≤ MAX_EXPRESSION_VARIABLES
    rw [h1]
    unfold MAX_EXPRESSION_VARIABLES
    omega
  · simp [Evaluator.construct]

/-- A reading with twelve integer data-points and one string data-point binds
the first ten integer data-points: 20 names, `d0`, `pump.d0`, ..., `d9`,
`pump.d9`. -/
theorem construct_binds_first_ten :
    (Evaluator.construct [] wideReading "d0 > 1").m_varCount = 20
      ∧ (Evaluator.construct [] wideReading "d0 > 1").m_variableNames
        = ["d0", "pump.d0", "d1", "pump.d1", "d2", "pump.d2", "d3", "pump.d3", "d4", "pump.d4",
           "d5", "pump.d5", "d6", "pump.d6", "d7", "pump.d7", "d8", "pump.d8", "d9",
           "pump.d9"] := by
  decide!

/-! ## The emission of an average -/

/-- The first loop of `sendPretrigger(out, reading)` ends on the data of the
last data-point with the name of the filter. -/
theorem findMatch_eq_last (k : String) (dps : List Datapoint) :
    findMatch k dps = (dps.reverse.find? (fun dp => decide (dp.name = k))).map Datapoint.data := by
  induction dps using List.reverseRecOn with
  | nil => rfl
  | append_singleton init dp ih =>
    unfold findMatch at ih ⊢
    rw [List.foldl_append, List.reverse_append, ih]
    by_cases h : dp.name = k
    · simp [h]
    · simp [h]

/-- For an integer or float match value the inner loop of `sendPretrigger` finds
whether some data-point has the name of the filter and the kind and value of
the match. -/
theorem addReadingScan_eq_any (k : String) (v : DatapointValue) (hv : v.numeric?.isSome)
    (dps : List Datapoint) :
    addReadingScan k v dps = dps.any (fun dp => decide (dp.name = k ∧ dp.data = v)) := by
  induction dps with
  | nil => rfl
  | cons dp rest ih =>
    simp only [addReadingScan, List.any_cons, ih]
    by_cases hn : dp.name = k
    · cases hd : dp.data <;> cases v <;>
        simp_all [DatapointValue.numeric?]
    · simp [hn]

/-- For a match value that is neither an integer nor a float the inner loop of
`sendPretrigger` never sets `addReading`. -/
theorem addReadingScan_of_not_numeric (k : String) (v : DatapointValue)
    (hv : v.numeric? = none) (dps : List Datapoint) : addReadingScan k v dps = false := by
  induction dps with
  | nil => rfl
  | cons dp rest ih =>
    simp only [addReadingScan, ih]
    cases hd : dp.data <;> cases v <;> simp_all [DatapointValue.numeric?]

/-- With a match value the `while` loop of `sendPretrigger` appends the buffered
readings for which the inner loop sets `addReading`, in the order of the
buffer. -/
theorem sendLoop_some (k : String) (v : DatapointValue) (buffer : List Reading) :
    ∀ out : List Reading, sendLoop k (some v) buffer out
      = out ++ buffer.filter (fun e => addReadingScan k v e.readingData) := by
  induction buffer with
  | nil => intro out; simp [sendLoop]
  | cons e rest ih =>
    intro out
    by_cases h : addReadingScan k v e.readingData = true
    · simp [sendLoop, h, ih]
    · simp [sendLoop, h, ih]
/-- Claim C22: the two-argument `sendPretrigger` on any filter, `k` being the
member `m_pretriggerFilter`. The filter is left with an empty buffer and no
other change. When `k` is empty the whole buffer is appended to the output,
oldest first. When `k` is not empty and `v`, an integer or a float, is the data
of the data-point named `k` of the triggering reading (of the last one, should
several carry the name), the readings appended are exactly the buffered
readings that carry a data-point named `k` of the kind and value of `v`, in the
order of the buffer. Beyond the claim: a triggering reading without a
data-point named `k` sends the whole buffer, and one whose data-point `k` is
neither an integer nor a float sends nothing. -/
theorem sendPretrigger_forwards_matching (f : RateFilter) (out : List Reading) (r : Reading) :
    (sendPretrigger f out r).1 = { f with m_buffer := [] }
      ∧ (f.m_pretriggerFilter = "" → (sendPretrigger f out r).2 = out ++ f.m_buffer)
      ∧ (∀ v : DatapointValue, f.m_pretriggerFilter ≠ "" →
          r.lastNamed f.m_pretriggerFilter = some v → v.numeric?.isSome →
          (sendPretrigger f out r).2
            = out ++ f.m_buffer.filter (fun e => e.carries f.m_pretriggerFilter v))
      ∧ (f.m_pretriggerFilter ≠ "" → r.lastNamed f.m_pretriggerFilter = none →
          (sendPretrigger f out r).2 = out ++ f.m_buffer)
      ∧ (∀ v : DatapointValue, f.m_pretriggerFilter ≠ "" →
          r.lastNamed f.m_pretriggerFilter = some v → v.numeric? = none →
          (sendPretrigger f out r).2 = out) := by
  refine ⟨rfl, ?_, ?_, ?_, ?_⟩
  · intro hk
    simp only [sendPretrigger, hk, ne_eq, not_true_eq_false, if_false]
    exact sendLoop_none _ _ _
  · intro v hk hlast hv
    unfold Reading.lastNamed at hlast
    simp only [sendPretrigger, hk, ne_eq, not_false_eq_true, if_true, findMatch_eq_last, hlast]
    rw [sendLoop_some]
    congr 1
    apply List.filter_congr
    intro e _
    exact addReadingScan_eq_any _ v hv e.readingData
  · intro hk hlast
    unfold Reading.lastNamed at hlast
    simp only [sendPretrigger, hk, ne_eq, not_false_eq_true, if_true, findMatch_eq_last, hlast]
    exact sendLoop_none _ _ _
  · intro v hk hlast hv
    unfold Reading.lastNamed at hlast
    simp only [sendPretrigger, hk, ne_eq, not_false_eq_true, if_true, findMatch_eq_last, hlast]
    rw [sendLoop_some]
    simp [addReadingScan_of_not_numeric _ v hv]

/-- Claim C22, witness: with the filter name `mode` and the triggering reading
`mode = 1`, of the five buffered readings the first and the last are sent, in
that order: `mode = 2`, the reading without `mode` and the float `mode = 1.0`
are dropped. With an empty filter name all five are sent. The buffer is empty
afterwards. -/
theorem sendPretrigger_forwards_matching_witness :
    (sendPretrigger filteringSample [lowReading] modeOne).2
        = [lowReading, intReading "pump" "mode" 1 100 0, intReading "pump" "mode" 1 100 500000]
      ∧ (sendPretrigger { filteringSample with m_pretriggerFilter := "" } [lowReading] modeOne).2
        = lowReading :: modeBuffer
      ∧ (sendPretrigger filteringSample [lowReading] modeOne).1.m_buffer = [] :=
  ⟨((sendPretrigger_forwards_matching filteringSample [lowReading] modeOne).2.2.1
      (.T_INTEGER 1) (by decide) (by decide) (by decide)).trans (by decide),
   (sendPretrigger_forwards_matching { filteringSample with m_pretriggerFilter := "" }
      [lowReading] modeOne).2.1 rfl,
   congrArg RateFilter.m_buffer
     (sendPretrigger_forwards_matching filteringSample [lowReading] modeOne).1⟩

/-! ## Rates that give an interval of zero -/

/-- A quotient of the rate block is zero exactly when the rate is above the
dividend. -/
theorem tdiv_rate_eq_zero_iff (n rate : Int) (hn : 0 ≤ n) (hr : 0 < rate) :
    Int.tdiv n rate = 0 ↔ n < rate := by
  rw [Int.tdiv_eq_ediv hn (by omega)]
  constructor
  · intro h
    by_contra hlt
    have h1 : 1 ≤ n / rate := (Int.le_ediv_iff_mul_le hr).2 (by omega)
    omega
  · intro h
    exact Int.ediv_eq_zero_of_lt hn h

/-- For a rate above 0 the guard of the averaging path holds after
`handleConfig` exactly when the rate is at most 1000000 per second, 60 per
minute, 3600 per hour or 86400 per day: above that the division of the rate
block gives the interval (0 s, 0 us) of rate 0. -/
theorem handleConfig_averages_iff (f : RateFilter) (c : ConfigCategory) (hr : 0 < c.rate) :
    (c.rateUnit = "per second" → ((handleConfig f c).averages ↔ c.rate ≤ 1000000))
      ∧ (c.rateUnit = "per minute" → ((handleConfig f c).averages ↔ c.rate ≤ 60))
      ∧ (c.rateUnit = "per hour" → ((handleConfig f c).averages ↔ c.rate ≤ 3600))
      ∧ (c.rateUnit = "per day" → ((handleConfig f c).averages ↔ c.rate ≤ 86400)) := by
  have hne : c.rate ≠ 0 := by omega
  have hz : ∀ n : Int, 0 ≤ n → (Int.tdiv n c.rate ≠ 0 ↔ c.rate ≤ n) := by
    intro n hn
    rw [ne_eq, tdiv_rate_eq_zero_iff n c.rate hn hr]
    omega
  unfold RateFilter.averages
  rw [handleConfig_m_rate]
  refine ⟨?_, ?_, ?_, ?_⟩
  · intro hu
    simp [rateInterval, hne, hu, hz 1000000 (by omega)]
  · intro hu
    simp [rateInterval, hne, hu, hz 60 (by omega)]
  · intro hu
    simp [rateInterval, hne, hu, hz 3600 (by omega)]
  · intro hu
    simp [rateInterval, hne, hu, hz 86400 (by omega)]

/-- Claim C23, refuted on the code: the rates 1000001 per second, 61 per minute,
3601 per hour and 86401 per day are above 0 and `handleConfig` gives each the
interval (0 s, 0 us). A filter constructed with 61 per minute drops the three
readings of `slowBatch`, none of which fires the trigger, without an average;
constructed with 60 per minute it sends an average for each of them. -/
theorem positive_rate_gives_zero_interval :
    (handleConfig (sampleFilter 0 1 [])
        ⟨"v > 50", "v < 5", 0, 1000001, "per second", "", .array []⟩).m_rate = ⟨0, 0⟩
      ∧ (handleConfig (sampleFilter 0 1 [])
        ⟨"v > 50", "v < 5", 0, 61, "per minute", "", .array []⟩).m_rate = ⟨0, 0⟩
      ∧ (handleConfig (sampleFilter 0 1 [])
        ⟨"v > 50", "v < 5", 0, 3601, "per hour", "", .array []⟩).m_rate = ⟨0, 0⟩
      ∧ (handleConfig (sampleFilter 0 1 [])
        ⟨"v > 50", "v < 5", 0, 86401, "per day", "", .array []⟩).m_rate = ⟨0, 0⟩
      ∧ ¬ (perMinuteFilter 61).averages
      ∧ (ingest sampleWorld 1 (perMinuteFilter 61) slowBatch []).output = some []
      ∧ (ingest sampleWorld 1 (perMinuteFilter 60) slowBatch []).output
          = some [averageOf 1 100, averageOf 3 102, averageOf 5 104] := by
  decide!

/-! ## Expressions that do not compile -/

/-- Without a trigger evaluator, `ingest` on a batch that starts with `r` is the
handler of the current state called on the filter with both evaluators built
from `r`. -/
theorem ingest_of_unbuilt (w : World) (fuel : Nat) (f : RateFilter) (r : Reading)
    (rest out : List Reading)
    (hb : f.m_pendingReconfigure = true ∨ f.m_triggerExpression = none) :
    ingest w fuel f (r :: rest) out = dispatch w fuel (rebuilt w f r) (r :: rest) out := by
  rcases hb with hp | hn
  · exact ingest_of_pending w fuel f r rest out hp
  · unfold ingest dispatch
    have hb : buildEvaluators w (discardPending f) (r :: rest) = .ok (rebuilt w f r) := by
      cases hp : f.m_pendingReconfigure with
      | true =>
        simp only [buildEvaluators, discardPending, hp, if_true, rebuilt, untriggerText]
        by_cases hu : f.m_untrigger = "" <;> simp [hu]
      | false =>
        simp only [buildEvaluators, discardPending, hp, Bool.false_eq_true, if_false, hn,
          rebuilt, untriggerText]
        by_cases hu : f.m_untrigger = "" <;> simp [hu, ← hp]
    rw [hb]

/-- Claim C17, as amended: no result of the compilation stops `ingest`, which
has no error for an expression text. For every world, whatever it says of the
compilation of the texts, an `ingest` that builds the evaluators on a batch
starting with the reading `r` runs the loop of the current state with the
evaluators constructed from the trigger and the untrigger text, and evaluates
them. In the Untriggered state, `r` not excluded, the value that the
expression library gives the trigger evaluator decides the transition: a value
that is not zero sets the state to Triggered, sends the pre-trigger buffer and
hands the batch to `triggeredIngest`; the value zero leaves the state and goes
on to buffer the reading, to the average and to the rest of the batch. In the
Triggered state the value of the untrigger evaluator decides: a value that is
not zero sets the state to Untriggered and hands the batch to
`untriggeredIngest`; the value zero forwards the reading and goes on to the
rest. Whenever `ingest` returns, the evaluators of the filter are still of
those texts. -/
theorem failed_expression_decides_transition (w : World) (fuel : Nat) (f : RateFilter)
    (r : Reading) (rest out : List Reading) :
    f.m_pendingReconfigure = true ∨ f.m_triggerExpression = none →
    (f.m_state = false → f.isExcluded r.assetName = false →
      (Evaluator.value w
            ((Evaluator.construct w.uninitTrigger r f.m_trigger).evaluate w r).1 ≠ 0 →
          ingest w (fuel + 1) f (r :: rest) out
            = triggeredIngest w fuel
                (sendPretrigger
                  (clearAverage
                    { rebuilt w f r with
                      m_triggerExpression :=
                        some ((Evaluator.construct w.uninitTrigger r f.m_trigger).evaluate w r).1
                      m_state := true }) out r).1
                (r :: rest)
                (sendPretrigger
                  (clearAverage
                    { rebuilt w f r with
                      m_triggerExpression :=
                        some ((Evaluator.construct w.uninitTrigger r f.m_trigger).evaluate w r).1
                      m_state := true }) out r).2)
        ∧ (Evaluator.value w
              ((Evaluator.construct w.uninitTrigger r f.m_trigger).evaluate w r).1 = 0 →
            ingest w (fuel + 1) f (r :: rest) out
              = match bufferPretrigger
                  { rebuilt w f r with
                    m_triggerExpression :=
                      some ((Evaluator.construct w.uninitTrigger r f.m_trigger).evaluate w r).1 }
                  r with
                | .error x => .error x
                | .ok f2 =>
                  if f2.m_rate.tv_sec ≠ 0 ∨ f2.m_rate.tv_usec ≠ 0 then
                    match addAverageReading f2 r out with
                    | .error x => .error x
                    | .ok a => untriggeredLoop w (triggeredIngest w fuel) a.1 rest a.2
                  else untriggeredLoop w (triggeredIngest w fuel) f2 rest out))
      ∧ (f.m_state = true →
          (Evaluator.value w
              ((Evaluator.construct w.uninitUntrigger r
                (untriggerText f.m_untrigger)).evaluate w r).1 ≠ 0 →
            ingest w (fuel + 1) f (r :: rest) out
              = untriggeredIngest w fuel
                  { rebuilt w f r with
                    m_untriggerExpression :=
                      some ((Evaluator.construct w.uninitUntrigger r
                        (untriggerText f.m_untrigger)).evaluate w r).1
                    m_state := false }
                  (r :: rest) out)
          ∧ (Evaluator.value w
                ((Evaluator.construct w.uninitUntrigger r
                  (untriggerText f.m_untrigger)).evaluate w r).1 = 0 →
              ingest w (fuel + 1) f (r :: rest) out
                = triggeredLoop w (untriggeredIngest w fuel)
                    { rebuilt w f r with
                      m_untriggerExpression :=
                        some ((Evaluator.construct w.uninitUntrigger r
                          (untriggerText f.m_untrigger)).evaluate w r).1 }
                    rest (out ++ [r])))
      ∧ (∀ x, ingest w (fuel + 1) f (r :: rest) out = .ok x →
          x.1.m_triggerExpression.map Evaluator.m_expression = some f.m_trigger
            ∧ x.1.m_untriggerExpression.map Evaluator.m_expression
              = some (untriggerText f.m_untrigger)) := by
  intro hb
  have hing := ingest_of_unbuilt w (fuel + 1) f r rest out hb
  have hte : (rebuilt w f r).m_triggerExpression
      = some (Evaluator.construct w.uninitTrigger r f.m_trigger) := rfl
  have hue : (rebuilt w f r).m_untriggerExpression
      = some (Evaluator.construct w.uninitUntrigger r (untriggerText f.m_untrigger)) := rfl
  refine ⟨?_, ?_, ?_⟩
  · intro hstate hex
    have hloop : ingest w (fuel + 1) f (r :: rest) out
        = untriggeredLoop w (triggeredIngest w fuel) (rebuilt w f r) (r :: rest) out := by
      rw [hing]
      unfold dispatch
      have hs : (rebuilt w f r).m_state = false := hstate
      rw [hs]
      simp only [Bool.false_eq_true, if_false, untriggeredIngest]
    have hexr : (rebuilt w f r).isExcluded r.assetName = false := hex
    refine ⟨?_, ?_⟩
    · intro hv
      have hfire :
          ((Evaluator.construct w.uninitTrigger r f.m_trigger).evaluate w r).2 = true := by
        simp only [Evaluator.evaluate, decide_eq_true_eq]
        exact hv
      rw [hloop]
      simp only [untriggeredLoop, hexr, Bool.false_eq_true, if_false, hte, hfire, if_true]
    · intro hv
      have hquiet :
          ((Evaluator.construct w.uninitTrigger r f.m_trigger).evaluate w r).2 = false := by
        simp only [Evaluator.evaluate, decide_eq_false_iff_not, not_not]
        exact hv
      rw [hloop]
      simp only [untriggeredLoop, hexr, Bool.false_eq_true, if_false, hte, hquiet]
  · intro hstate
    have hloop : ingest w (fuel + 1) f (r :: rest) out
        = triggeredLoop w (untriggeredIngest w fuel) (rebuilt w f r) (r :: rest) out := by
      rw [hing]
      unfold dispatch
      have hs : (rebuilt w f r).m_state = true := hstate
      rw [hs]
      simp only [if_true, triggeredIngest]
    refine ⟨?_, ?_⟩
    · intro hv
      have hfire : ((Evaluator.construct w.uninitUntrigger r
          (untriggerText f.m_untrigger)).evaluate w r).2 = true := by
        simp only [Evaluator.evaluate, decide_eq_true_eq]
        exact hv
      rw [hloop]
      simp only [triggeredLoop, hue, hfire, if_true]
    · intro hv
      have hquiet : ((Evaluator.construct w.uninitUntrigger r
          (untriggerText f.m_untrigger)).evaluate w r).2 = false := by
        simp only [Evaluator.evaluate, decide_eq_false_iff_not, not_not]
        exact hv
      rw [hloop]
      simp only [triggeredLoop, hue, hquiet, Bool.false_eq_true, if_false]
  · intro x hx
    rw [hing] at hx
    have hfr := Frame_dispatch w (fuel + 1) (rebuilt w f r) (r :: rest) out x hx
    have h8 := hfr.2.2.2.2.2.2.2.1
    have h9 := hfr.2.2.2.2.2.2.2.2
    rw [hte] at h8
    rw [hue] at h9
    constructor
    · cases hxe : x.1.m_triggerExpression with
      | none => simp [hxe] at h8
      | some e =>
        simp only [hxe, Option.map_some', Option.some.injEq, Evaluator.shape,
          Prod.mk.injEq] at h8
        simp only [Option.map_some', Option.some.injEq]
        rw [h8.1]
        rfl
    · cases hxe : x.1.m_untriggerExpression with
      | none => simp [hxe] at h9
      | some e =>
        simp only [hxe, Option.map_some', Option.some.injEq, Evaluator.shape,
          Prod.mk.injEq] at h9
        simp only [Option.map_some', Option.some.injEq]
        rw [h9.1]
        rfl

/-- Claim C17, witness: the filter `brokenTriggerFilter` has no evaluator yet, is
Untriggered and does not exclude `highReading`, and its trigger text `v >` does
not compile. In the world where the text evaluates to a value that is not zero
`ingest` hands the batch to the Triggered handler and the reading is forwarded;
in the world where it evaluates to zero the reading is dropped. -/
theorem failed_expression_decides_transition_witness :
    nanWorld.compiles ["v", "pump.v"] brokenTriggerFilter.m_trigger = false
      ∧ (ingest nanWorld 2 brokenTriggerFilter [highReading] []).output = some [highReading]
      ∧ (ingest sampleWorld 2 brokenTriggerFilter [highReading] []).output = some [] :=
  ⟨by decide!,
   (congrArg Outcome.output
      (((failed_expression_decides_transition nanWorld 1 brokenTriggerFilter highReading [] []
        (Or.inr (by decide!))).1 (by decide!) (by decide!)).1 (by decide!))).trans
      (by decide!),
   (congrArg Outcome.output
      (((failed_expression_decides_transition sampleWorld 1 brokenTriggerFilter highReading
        [] [] (Or.inr (by decide!))).1 (by decide!) (by decide!)).2 (by decide!))).trans
      (by decide!)⟩

/-- Claim C17, counterexample: the trigger text `v >` does not compile, and
`ingest` on the reading `v = 100` returns a result all the same. Where the
failed expression evaluates to zero the reading is dropped and the filter stays
Untriggered; where it evaluates to a value that is not zero the filter becomes
Triggered and the reading is forwarded. -/
theorem broken_trigger_is_evaluated :
    sampleWorld.compiles ["v", "pump.v"] "v >" = false
      ∧ (ingest sampleWorld 2 brokenTriggerFilter [highReading] []).output = some []
      ∧ Option.map RateFilter.m_state
          (ingest sampleWorld 2 brokenTriggerFilter [highReading] []).filter = some false
      ∧ (ingest nanWorld 2 brokenTriggerFilter [highReading] []).output = some [highReading]
      ∧ Option.map RateFilter.m_state
          (ingest nanWorld 2 brokenTriggerFilter [highReading] []).filter = some true := by
  decide!

end FogLamp
